import Mathlib

/-!
Shallow embedding of the vessel multi-camera multi-object tracking (MCMOT)
core: the identity resolver (`VesselMCMOT` in
`src/vessel/detection_manager/services/vessel_mcmot.py`, subclassing `MCMOT`
in `mcmot_service.py`), the event lifecycle tracker (`EventService` in
`src/vessel/event_manager/services/event_service.py`), and the geocalibration
reference-scale computation (`GridLocationService` in
`src/vessel/camera_manager/services/utils/grid_location_service.py`).

Python dictionaries are modelled as insertion-ordered association lists
(`alookup` / `dinsert`), matching Python's dict semantics: lookup by key,
in-place overwrite of an existing key preserving its position, append of a
new key at the end.  Embedding vectors and areas are modelled over `ℚ`
(exact rationals standing for the floats of the source); geographic
computations are modelled over `ℝ`.

The constants `CAMERA_1_ID .. CAMERA_4_ID`, `VESSEL_SIZE_THRESHOLD` and
`GALLERY_MATCH_THRESHOLD` are imported by the source from
`detection_manager/config/config.py`, which is not part of the sources;
camera ids are abstracted as the naturals 1..4 (four distinct ids; the
topology structure `camera_query_scope` is taken verbatim from the source),
and the two thresholds are carried as fields of the resolver state.
-/

namespace Vessel

/-- Python dict lookup on an association list: first binding of the key. -/
def alookup {α β : Type} [DecidableEq α] : List (α × β) → α → Option β
  | [], _ => none
  | (k, v) :: rest, a => if k = a then some v else alookup rest a

/-- Python dict assignment `d[k] = v`: overwrite an existing key in place,
otherwise append the new binding at the end (insertion order preserved). -/
def dinsert {α β : Type} [DecidableEq α] : List (α × β) → α → β → List (α × β)
  | [], a, b => [(a, b)]
  | (k, v) :: rest, a, b => if k = a then (a, b) :: rest else (k, v) :: dinsert rest a b

/-- Bounding box `[x1, y1, x2, y2]` of a detection (coordinates as exact
rationals standing for the source's floats). -/
structure BBox where
  x1 : ℚ
  y1 : ℚ
  x2 : ℚ
  y2 : ℚ
deriving DecidableEq

/-- One detected object of a single class on a frame, as consumed by
`VesselMCMOT.process_camera_frame`: local track id, ReID feature embedding,
bounding box. -/
structure Detection where
  localId : Nat
  feature : List ℚ
  bbox : BBox
deriving DecidableEq

/-- `obj_area = (bbox[2] - bbox[0]) * (bbox[3] - bbox[1])`
(vessel_mcmot.py line 136). -/
def Detection.area (d : Detection) : ℚ := (d.bbox.x2 - d.bbox.x1) * (d.bbox.y2 - d.bbox.y1)

/-- A gallery entry: `{"camera_features": {cameraId: feature_vector}}`. -/
structure Entry where
  cameraFeatures : List (Nat × List ℚ)
deriving DecidableEq

/-- Per-class state of `VesselMCMOT` (vessel_mcmot.py / mcmot_service.py):
the gallery, the FAISS index vectors in insertion order, the
local-to-global-id bindings (`{cameraId: {local_id: global_id}}`), the
per-class id counter, the per-camera best-area record
(`{global_id: {cameraId: area}}`) and the last-seen bbox per local track.
The two configuration thresholds (imported by the source from the absent
`config/config.py`) are carried as fields, never mutated. -/
structure ClassState where
  sizeThreshold : ℚ
  matchThreshold : ℚ
  gallery : List (Nat × Entry)
  faissIndex : List (List ℚ)
  localToGlobal : List (Nat × List (Nat × Nat))
  globalIdCounter : Nat
  maxSizeRecord : List (Nat × List (Nat × ℚ))
  vesselTrajectory : List (Nat × BBox)
deriving DecidableEq

/-- Fresh per-class state as set up by `MCMOT.__init__` /
`VesselMCMOT.__init__`: empty gallery, empty index, no bindings, counter 0. -/
def initClassState (sizeThreshold matchThreshold : ℚ) : ClassState :=
  { sizeThreshold := sizeThreshold
    matchThreshold := matchThreshold
    gallery := []
    faissIndex := []
    localToGlobal := []
    globalIdCounter := 0
    maxSizeRecord := []
    vesselTrajectory := [] }

/-- `camera_query_scope` from `VesselMCMOT.__init__` (camera ids abstracted
as 1..4): camera 1 queries nothing, camera 2 queries camera 1, camera 3
queries camera 2, camera 4 queries camera 3; `.get(cameraId, [])` yields
`[]` for any other id. -/
def cameraQueryScope (cameraId : Nat) : List Nat :=
  if cameraId = 1 then []
  else if cameraId = 2 then [1]
  else if cameraId = 3 then [2]
  else if cameraId = 4 then [3]
  else []

/-- Squared Euclidean (L2) distance between two vectors, as returned by a
`faiss.IndexFlatL2` search. -/
def sqDist (q v : List ℚ) : ℚ := (List.zipWith (fun a b => (a - b) ^ 2) q v).sum

/-- Index and value of the first minimal element: `(best, bestIdx)` scanned
left to right, strictly smaller values taking over. -/
def argminFrom (best : ℚ) (bestIdx : Nat) (j : Nat) : List ℚ → ℚ × Nat
  | [] => (best, bestIdx)
  | y :: ys => if y < best then argminFrom y j (j + 1) ys else argminFrom best bestIdx (j + 1) ys

/-- `faiss_indexes[obj_type].search(query, 1)`: the (squared distance, index)
of the nearest stored vector over the WHOLE index, `none` on an empty
index (faiss then reports index -1 and an infinite distance, which the
caller's threshold test turns into "no match"; Python's `gallery_ids[-1]`
indexing does not raise). Ties resolve to the lowest index. -/
def faissSearch (index : List (List ℚ)) (q : List ℚ) : Option (ℚ × Nat) :=
  match index.map (fun v => sqDist q v) with
  | [] => none
  | d :: ds => some (argminFrom d 0 1 ds)

/-- Best stored predecessor-camera feature of a gallery entry, as selected by
the loop `for cam in valid_cameras: if cam in data["camera_features"]: ...`
in `VesselMCMOT.match_with_gallery` — the LAST listed predecessor camera
holding a feature wins. -/
def bestFeature (validCameras : List Nat) (e : Entry) : Option (List ℚ) :=
  validCameras.foldl
    (fun acc cam =>
      match alookup e.cameraFeatures cam with
      | some f => some f
      | none => acc)
    none

/-- Result of `VesselMCMOT.match_with_gallery`: a matched global id, no
match (Python `None`), or an uncaught `IndexError` — the source searches the
FULL FAISS index but indexes the resulting position into the FILTERED
`gallery_ids` list, which can be shorter. -/
inductive MatchResult
  | found (gid : Nat)
  | noMatch
  | crash
deriving DecidableEq

/-- `VesselMCMOT.match_with_gallery(obj_type, query_feature, cameraId,
obj_area)` (vessel_mcmot.py lines 39-94), translated statement by
statement: the size gate, the restriction of the gallery to entries holding
a feature from a camera in `camera_query_scope[cameraId]`, the selection of
each candidate's predecessor feature, then the FAISS search — which the
source performs on `self.faiss_indexes[obj_type]` (ALL vectors ever added),
not on the filtered `gallery_features_np` it just built — and finally
`gallery_ids[idx[0][0]]` with the threshold test.  The source's local
`filtered_gallery` and `gallery_ids` are split out as
`filteredGalleryOf` / `galleryIdsOf`. -/
def filteredGalleryOf (s : ClassState) (cameraId : Nat) : List (Nat × Entry) :=
  s.gallery.filter
    (fun p => (cameraQueryScope cameraId).any (fun cam => (alookup p.2.cameraFeatures cam).isSome))

/-- The source's `gallery_ids` list: the id of each filtered entry that
yields a best feature (which is every filtered entry, since the filter
predicate is exactly what makes `bestFeature` succeed). -/
def galleryIdsOf (s : ClassState) (cameraId : Nat) : List Nat :=
  (filteredGalleryOf s cameraId).filterMap
    (fun p => (bestFeature (cameraQueryScope cameraId) p.2).map (fun _ => p.1))

def matchWithGallery (s : ClassState) (queryFeature : List ℚ) (cameraId : Nat)
    (objArea : ℚ) : MatchResult :=
  if objArea < s.sizeThreshold then .noMatch
  else
    if (filteredGalleryOf s cameraId).length = 0 then .noMatch
    else
      if (galleryIdsOf s cameraId).length = 0 then .noMatch
      else
        match faissSearch s.faissIndex queryFeature with
        | none => .noMatch
        | some (dist, i) =>
          match (galleryIdsOf s cameraId).get? i with
          | none => .crash
          | some gid => if dist < s.matchThreshold then .found gid else .noMatch

/-- `VesselMCMOT.register_object_in_gallery(cameraId, obj_type,
feature_vector, area)` (lines 96-108): allocate the next global id, store
the entry, append the vector to the FAISS index, record the area. -/
def registerObject (s : ClassState) (cameraId : Nat) (featureVector : List ℚ)
    (area : ℚ) : ClassState × Nat :=
  let globalId := s.globalIdCounter
  ({ s with
      globalIdCounter := globalId + 1
      gallery := dinsert s.gallery globalId ⟨[(cameraId, featureVector)]⟩
      faissIndex := s.faissIndex ++ [featureVector]
      maxSizeRecord := dinsert s.maxSizeRecord globalId [(cameraId, area)] },
   globalId)

/-- `VesselMCMOT.update_gallery_feature(cameraId, obj_type, global_id,
new_feature, new_area)` (lines 110-121).  Returned flag: `true` models the
uncaught `KeyError` the source raises when `global_id` is absent from the
gallery while `new_area` beats the recorded maximum (the max-size write on
line 118 happens first, and `self.max_size_record.get(global_id, {})`
returns a fresh dict NOT stored back when the id has no record — that
Python aliasing is reproduced here: the record is only updated when the id
already has one). -/
def updateGalleryFeature (s : ClassState) (cameraId : Nat) (globalId : Nat)
    (newFeature : List ℚ) (newArea : ℚ) : ClassState × Bool :=
  let targetRecord := alookup s.maxSizeRecord globalId
  let maxAreaPerCamera := (alookup (targetRecord.getD []) cameraId).getD 0
  if newArea > maxAreaPerCamera then
    let msr :=
      match targetRecord with
      | some r => dinsert s.maxSizeRecord globalId (dinsert r cameraId newArea)
      | none => s.maxSizeRecord
    match alookup s.gallery globalId with
    | some e =>
        ({ s with
            maxSizeRecord := msr
            gallery := dinsert s.gallery globalId ⟨dinsert e.cameraFeatures cameraId newFeature⟩ },
         false)
    | none => ({ s with maxSizeRecord := msr }, true)
  else (s, false)

/-- Binding lookup `cameraId in self.local_to_global_id[obj_type] and
local_id in self.local_to_global_id[obj_type][cameraId]`. -/
def lookupBinding (m : List (Nat × List (Nat × Nat))) (cameraId localId : Nat) : Option Nat :=
  match alookup m cameraId with
  | none => none
  | some inner => alookup inner localId

/-- `self.local_to_global_id[obj_type].setdefault(cameraId, {})[local_id] =
global_id` (line 160). -/
def bindLocal (m : List (Nat × List (Nat × Nat))) (cameraId localId gid : Nat) :
    List (Nat × List (Nat × Nat)) :=
  dinsert m cameraId (dinsert ((alookup m cameraId).getD []) localId gid)

/-- Outcome of processing one detection: a resolved global id, a skip
(too small, unmatched — `update_info` with `global_id=None`), or an
uncaught exception inside the resolution. -/
inductive Outcome
  | resolved (gid : Nat)
  | skipped
  | crashed
deriving DecidableEq

/-- Tail of every successful resolution path (vessel_mcmot.py line 163):
`update_gallery_feature` runs on the bound, matched AND freshly-registered
paths alike.  Returns (state, outcome, id allocated by this step if any). -/
def finishResolution (s : ClassState) (cameraId : Nat) (d : Detection) (gid : Nat)
    (alloc : Option Nat) : ClassState × Outcome × Option Nat :=
  let r := updateGalleryFeature s cameraId gid d.feature d.area
  (r.1, if r.2 then .crashed else .resolved gid, alloc)

/-- The per-object body of `VesselMCMOT.process_camera_frame` (lines
131-170): record the trajectory, use an existing binding if any, otherwise
query the gallery; on a match reuse the id, otherwise register a fresh id
when the area reaches the size threshold, else skip; every resolved path
then applies the best-shot feature update. -/
def processDetection (s : ClassState) (cameraId : Nat) (d : Detection) :
    ClassState × Outcome × Option Nat :=
  let objArea := d.area
  let s1 := { s with vesselTrajectory := dinsert s.vesselTrajectory d.localId d.bbox }
  match lookupBinding s1.localToGlobal cameraId d.localId with
  | some gid => finishResolution s1 cameraId d gid none
  | none =>
    match matchWithGallery s1 d.feature cameraId objArea with
    | .crash => (s1, .crashed, none)
    | .found gid =>
        let s2 := { s1 with localToGlobal := bindLocal s1.localToGlobal cameraId d.localId gid }
        finishResolution s2 cameraId d gid none
    | .noMatch =>
        if objArea ≥ s1.sizeThreshold then
          let r := registerObject s1 cameraId d.feature objArea
          let s3 := { r.1 with localToGlobal := bindLocal r.1.localToGlobal cameraId d.localId r.2 }
          finishResolution s3 cameraId d r.2 (some r.2)
        else (s1, .skipped, none)

/-- An operation on the per-class resolver state: one detection observed by
a camera, or the removal of a gallery entry (`del
self.gallery[obj_type][global_id]`, the camera-4 cleanup of
`MCMOT.process_camera_frame`, mcmot_service.py line 87 — it never touches
the id counter). -/
inductive Op
  | obs (cameraId : Nat) (d : Detection)
  | evict (gid : Nat)

/-- One operation: (new state, whether an exception escaped, id allocated). -/
def stepOp (s : ClassState) : Op → ClassState × Bool × Option Nat
  | .obs cameraId d =>
      let r := processDetection s cameraId d
      (r.1, decide (r.2.1 = Outcome.crashed), r.2.2)
  | .evict gid =>
      ({ s with gallery := s.gallery.filter (fun p => decide (p.1 ≠ gid)) }, false, none)

/-- Run a list of operations, collecting the allocated global ids in order;
an uncaught exception aborts the remainder of the run (the id allocated by
the aborting step, if any, has still been allocated). -/
def runTrace (s : ClassState) : List Op → ClassState × List Nat
  | [] => (s, [])
  | op :: ops =>
      let r := stepOp s op
      if r.2.1 then (r.1, r.2.2.toList)
      else ((runTrace r.1 ops).1, r.2.2.toList ++ (runTrace r.1 ops).2)

/-- The stored embedding of gallery entry `g` for camera `c`. -/
def galleryFeature (s : ClassState) (g c : Nat) : Option (List ℚ) :=
  (alookup s.gallery g).bind (fun e => alookup e.cameraFeatures c)

/-- The recorded maximum area for `(g, c)`, with the source's `.get`
defaults (`{}` then `0`). -/
def maxRec (s : ClassState) (g c : Nat) : ℚ :=
  (alookup ((alookup s.maxSizeRecord g).getD []) c).getD 0

/-! ### Event lifecycle tracker (`EventService`, event_service.py)

Django model writes (`Vessel.objects.create`, `event.save()`) are modelled
as in-memory record updates; a completed event is appended to
`completedEvents` (the persisted record).  The source uses two clocks — the
caller-supplied `current_time: datetime` for timestamps and `time.time()`
inside `_should_record_tracking_point` — which are modelled as one rational
clock value `now` passed to each call (timestamps in seconds).  The string
camera ids `'camera1' .. 'camera4'` used by this module are abstracted as
the naturals 1..4, so the terminal-camera literal `'camera4'` becomes 4. -/

/-- A geographic position `{latitude, longitude}`. -/
structure Coord where
  latitude : ℚ
  longitude : ℚ
deriving DecidableEq

/-- One entry of `duration_metadata['tracking_points']`. -/
structure TrackingPoint where
  timestamp : ℚ
  longitude : ℚ
  latitude : ℚ
  channelType : Option String
deriving DecidableEq

/-- The in-memory data of one event: the `Vessel` record's
`first_seen`/`last_seen`, the `VesselEvent` record's `start_time`,
`end_time` and tracking points, and the per-camera snapshot position map
`camera_positions`. -/
structure EventData where
  firstSeen : ℚ
  lastSeen : ℚ
  startTime : ℚ
  endTime : Option ℚ
  trackingPoints : List TrackingPoint
  cameraPositions : List (Nat × Coord)
deriving DecidableEq

/-- `EventService` state: `active_events`, `last_track_time`,
`tracking_interval` (fixed to 10 in `__init__`), plus the persisted
completed events. -/
structure EventState where
  activeEvents : List (Nat × EventData)
  lastTrackTime : List (Nat × ℚ)
  trackingInterval : ℚ
  completedEvents : List (Nat × EventData)
deriving DecidableEq

/-- `EventService.__init__`. -/
def initEventState : EventState :=
  { activeEvents := []
    lastTrackTime := []
    trackingInterval := 10
    completedEvents := [] }

/-- Python truthiness of `detection.get('global_id')` as tested by
`if not global_id:` — `None` and `0` are both falsy. -/
def truthy : Option Nat → Bool
  | none => false
  | some n => decide (n ≠ 0)

/-- `EventService._create_new_event` (lines 46-73): fresh vessel/event
records, a single initial tracking point at the detection position with
`channel_type = None`, and the camera position snapshot.  Note: it does NOT
record anything in `last_track_time`. -/
def createNewEvent (s : EventState) (g : Nat) (cameraId : Nat) (now : ℚ)
    (coords : Coord) : EventState :=
  { s with
      activeEvents := dinsert s.activeEvents g
        { firstSeen := now
          lastSeen := now
          startTime := now
          endTime := none
          trackingPoints :=
            [{ timestamp := now
               longitude := coords.longitude
               latitude := coords.latitude
               channelType := none }]
          cameraPositions := [(cameraId, coords)] } }

/-- `EventService._calculate_average_position`: unweighted mean of the
camera positions (`None` on an empty list). -/
def averagePosition (positions : List Coord) : Option Coord :=
  if positions.length = 0 then none
  else
    some
      { latitude := (positions.map Coord.latitude).sum / (positions.length : ℚ)
        longitude := (positions.map Coord.longitude).sum / (positions.length : ℚ) }

/-- `EventService._should_record_tracking_point` (lines 87-95): compare the
clock against `last_track_time.get(global_id, 0)`; on success the last
track time is advanced to `now` as a side effect. -/
def shouldRecordTrackingPoint (s : EventState) (g : Nat) (now : ℚ) : Bool × EventState :=
  let lastTime := (alookup s.lastTrackTime g).getD 0
  if now - lastTime ≥ s.trackingInterval then
    (true, { s with lastTrackTime := dinsert s.lastTrackTime g now })
  else (false, s)

/-- `EventService._update_event` (lines 98-122): update the camera position
snapshot and `last_seen`, average the positions, and append a tracking
point only when the sampling check fires.  The `none` branches are
unreachable from `process_detection` (the caller checks activity; the
position list is nonempty after the insert). -/
def updateEvent (s : EventState) (g : Nat) (cameraId : Nat) (now : ℚ)
    (coords : Coord) (channelType : Option String) : EventState :=
  match alookup s.activeEvents g with
  | none => s
  | some ev =>
    let ev1 := { ev with
        cameraPositions := dinsert ev.cameraPositions cameraId coords
        lastSeen := now }
    let s1 := { s with activeEvents := dinsert s.activeEvents g ev1 }
    let r := shouldRecordTrackingPoint s1 g now
    if r.1 then
      match averagePosition (ev1.cameraPositions.map Prod.snd) with
      | none => r.2
      | some avg =>
        { r.2 with
            activeEvents := dinsert r.2.activeEvents g
              { ev1 with
                  trackingPoints := ev1.trackingPoints ++
                    [{ timestamp := now
                       longitude := avg.longitude
                       latitude := avg.latitude
                       channelType := channelType }] } }
    else r.2

/-- `EventService.process_detection` (lines 13-30): bail out when
`detection.get('global_id')` is falsy (`None` OR `0`), else create or
update the event for that id. -/
def evProcessDetection (s : EventState) (gid : Option Nat) (cameraId : Nat)
    (now : ℚ) (coords : Coord) (channelType : Option String) : EventState :=
  match gid with
  | none => s
  | some g =>
    if g = 0 then s
    else if (alookup s.activeEvents g).isSome then
      updateEvent s g cameraId now coords channelType
    else createNewEvent s g cameraId now coords

/-- `EventService._complete_event` (lines 124-137): set `end_time`, persist
the event, drop the id from the active set and from `last_track_time`. -/
def completeEvent (s : EventState) (g : Nat) (now : ℚ) : EventState :=
  match alookup s.activeEvents g with
  | none => s
  | some ev =>
    { s with
        activeEvents := s.activeEvents.filter (fun p => decide (p.1 ≠ g))
        lastTrackTime := s.lastTrackTime.filter (fun p => decide (p.1 ≠ g))
        completedEvents := s.completedEvents ++ [(g, { ev with endTime := some now })] }

/-- `EventService.check_event_completion` (lines 32-44): on the terminal
camera (`'camera4'`, here 4), complete EVERY active event whose position
snapshot holds a terminal-camera entry — the source never tests whether camera4
contributed a position in the CURRENT cycle. -/
def checkEventCompletion (s : EventState) (cameraId : Nat) (now : ℚ) : EventState :=
  if cameraId = 4 then
    (s.activeEvents.map Prod.fst).foldl
      (fun acc g =>
        match alookup acc.activeEvents g with
        | none => acc
        | some ev =>
          if (alookup ev.cameraPositions 4).isSome then completeEvent acc g now
          else acc)
      s
  else s

/-- One call into `EventService`: a processed detection or a completion
check. -/
inductive EvOp
  | det (gid : Option Nat) (cameraId : Nat) (now : ℚ) (coords : Coord)
        (channelType : Option String)
  | check (cameraId : Nat) (now : ℚ)

/-- Apply one `EventService` call. -/
def evStep (s : EventState) : EvOp → EventState
  | .det gid cameraId now coords channelType =>
      evProcessDetection s gid cameraId now coords channelType
  | .check cameraId now => checkEventCompletion s cameraId now

/-- Run a sequence of `EventService` calls from the freshly constructed
service. -/
def runEvTrace (ops : List EvOp) : EventState := ops.foldl evStep initEventState

/-! ### Geocalibration reference scale (`GridLocationService`)

`calculate_reference_line` and `haversine_distance`
(grid_location_service.py lines 87-114), over `ℝ`.  `math.atan2` is
embedded with its full piecewise definition. -/

noncomputable section GeoDefs

open Real

/-- `math.radians`: degrees to radians, `x * pi / 180`. -/
def radiansR (x : ℝ) : ℝ := x * Real.pi / 180

/-- `math.atan2(y, x)`. -/
def atan2R (y x : ℝ) : ℝ :=
  if 0 < x then Real.arctan (y / x)
  else if x < 0 then
    (if 0 ≤ y then Real.arctan (y / x) + Real.pi else Real.arctan (y / x) - Real.pi)
  else if 0 < y then Real.pi / 2
  else if y < 0 then -(Real.pi / 2)
  else 0

/-- `GridLocationService.haversine_distance(lat1, lon1, lat2, lon2)` with
`self.earth_radius = 6371000` from `__init__`. -/
def haversineDistance (lat1 lon1 lat2 lon2 : ℝ) : ℝ :=
  let lat1r := radiansR lat1
  let lon1r := radiansR lon1
  let lat2r := radiansR lat2
  let lon2r := radiansR lon2
  let dlat := lat2r - lat1r
  let dlon := lon2r - lon1r
  let a := Real.sin (dlat / 2) ^ 2 + Real.cos lat1r * Real.cos lat2r * Real.sin (dlon / 2) ^ 2
  let c := 2 * atan2R (Real.sqrt a) (Real.sqrt (1 - a))
  6371000 * c

/-- One calibration reference point: pixel coordinates and geographic
coordinates `(lat, lon)`. -/
structure RefPoint where
  pixelX : ℝ
  pixelY : ℝ
  lat : ℝ
  lon : ℝ

/-- `GridLocationService.calculate_reference_line` on the two stored
reference points: returns `(direction_vector, scale_factor)` where the
scale is the haversine distance between the geo points divided by the
Euclidean pixel distance. -/
def calculateReferenceLine (p1 p2 : RefPoint) : (ℝ × ℝ) × ℝ :=
  let dxPixel := p2.pixelX - p1.pixelX
  let dyPixel := p2.pixelY - p1.pixelY
  let pixelDistance := Real.sqrt (dxPixel ^ 2 + dyPixel ^ 2)
  let realDistance := haversineDistance p1.lat p1.lon p2.lat p2.lon
  ((dxPixel / pixelDistance, dyPixel / pixelDistance), realDistance / pixelDistance)

end GeoDefs

/-! ### Concrete fixtures used by the claim theorems -/

/-- Resolver state holding two registered identities: gid 0 registered by
camera 2 with feature `[0,0]`, gid 1 registered by camera 1 with feature
`[10,0]`; the FAISS index holds both registration vectors in insertion
order; size threshold 1, match threshold 1/2. -/
def c1State : ClassState :=
  { sizeThreshold := 1
    matchThreshold := 1 / 2
    gallery := [(0, ⟨[(2, [0, 0])]⟩), (1, ⟨[(1, [10, 0])]⟩)]
    faissIndex := [[0, 0], [10, 0]]
    localToGlobal := []
    globalIdCounter := 2
    maxSizeRecord := [(0, [(2, 5)]), (1, [(1, 5)])]
    vesselTrajectory := [] }

/-- Resolver state with one identity (gid 0, feature `[0,0]` from camera 1,
best area 10) and a live binding (camera 1, local track 5) → gid 0. -/
def c7State : ClassState :=
  { sizeThreshold := 1
    matchThreshold := 1 / 2
    gallery := [(0, ⟨[(1, [0, 0])]⟩)]
    faissIndex := [[0, 0]]
    localToGlobal := [(1, [(5, 0)])]
    globalIdCounter := 1
    maxSizeRecord := [(0, [(1, 10)])]
    vesselTrajectory := [] }

/-- A detection on local track 5 with feature `[7,7]` and area 20. -/
def c7Det : Detection := { localId := 5, feature := [7, 7], bbox := ⟨0, 0, 4, 5⟩ }

/-- EventService state after one cycle in which gid 1 was seen by camera 1
at time 0 and then by the terminal camera (4) at time 100 — the terminal
camera HAS contributed a position in the current cycle. -/
def c3Cycle : EventState :=
  evProcessDetection (evProcessDetection initEventState (some 1) 1 0 ⟨0, 0⟩ none)
    (some 1) 4 100 ⟨0, 0⟩ none

/-- The completion check run at the end of that same cycle. -/
def c3After : EventState := checkEventCompletion c3Cycle 4 100

/-- EventService trace: event for gid 1 created at t = 1000, then a second
sighting at t = 1004 (only 4 seconds later). -/
def c8Trace : List EvOp :=
  [.det (some 1) 1 1000 ⟨0, 0⟩ none, .det (some 1) 1 1004 ⟨0, 0⟩ none]

/-- A below-size-threshold detection on local track 7 (area 1/2). -/
def c5Small : Detection := { localId := 7, feature := [1, 2], bbox := ⟨0, 0, 1, 1 / 2⟩ }

/-- An above-threshold detection on the same local track 7 (area 100). -/
def c5Big : Detection := { localId := 7, feature := [1, 2], bbox := ⟨0, 0, 10, 10⟩ }

/-- A second detection on local track 5 with feature `[9,9]` and area 30. -/
def c4Det2 : Detection := { localId := 5, feature := [9, 9], bbox := ⟨0, 0, 5, 6⟩ }

/-- EventService trace exercising the sampling gate: create at t = 1000,
sightings at t = 1004 (sampled, since creation never initialises the last
sample time), t = 1011 (7 s later, not sampled) and t = 1014 (10 s after
the last sample, sampled). -/
def c8wTrace : List EvOp :=
  [.det (some 1) 1 1000 ⟨0, 0⟩ none, .det (some 1) 1 1004 ⟨0, 0⟩ none,
   .det (some 1) 1 1011 ⟨0, 0⟩ none, .det (some 1) 1 1014 ⟨0, 0⟩ none]

/-- The event record produced by `c8wTrace` for global id 1. -/
def c8wEv : EventData :=
  { firstSeen := 1000
    lastSeen := 1014
    startTime := 1000
    endTime := none
    trackingPoints :=
      [{ timestamp := 1000, longitude := 0, latitude := 0, channelType := none },
       { timestamp := 1004, longitude := 0, latitude := 0, channelType := none },
       { timestamp := 1014, longitude := 0, latitude := 0, channelType := none }]
    cameraPositions := [(1, ⟨0, 0⟩)] }

/-! ### Well-formedness predicates -/

/-- Every live binding points at an existing gallery entry.  Holds on all
states the resolver can reach: bindings are only created from a successful
match (whose id comes from the gallery) or a fresh registration, and
`VesselMCMOT` never deletes gallery entries (the camera-4 cleanup is
commented out in the source). -/
def WFBound (s : ClassState) : Prop :=
  ∀ p ∈ s.localToGlobal, ∀ q ∈ p.2, (alookup s.gallery q.2).isSome

/-- Resolver well-formedness: gallery and max-size-record ids are below the
id counter, every gallery id has a max-size record, and every binding
points at a gallery entry.  `Inv` holds of the fresh state and is preserved
by `processDetection` (`Inv_processDetection`). -/
def Inv (s : ClassState) : Prop :=
  (∀ p ∈ s.gallery, p.1 < s.globalIdCounter) ∧
  (∀ p ∈ s.maxSizeRecord, p.1 < s.globalIdCounter) ∧
  (∀ p ∈ s.gallery, (alookup s.maxSizeRecord p.1).isSome) ∧
  (∀ p ∈ s.localToGlobal, ∀ q ∈ p.2, (alookup s.gallery q.2).isSome)

/-- EventService well-formedness: the sampling interval is nonnegative and,
for every event (active or completed), the tracking points APPENDED after
the initial creation point are spaced by at least the interval; for active
events the last appended timestamp is bounded by the recorded last sample
time. -/
def evInv (s : EventState) : Prop :=
  0 ≤ s.trackingInterval ∧
  (∀ p ∈ s.activeEvents,
    List.Chain' (fun u v => s.trackingInterval ≤ v.timestamp - u.timestamp)
      (p.2.trackingPoints.drop 1) ∧
    ∀ q, (p.2.trackingPoints.drop 1).getLast? = some q →
      q.timestamp ≤ (alookup s.lastTrackTime p.1).getD 0) ∧
  (∀ p ∈ s.completedEvents,
    List.Chain' (fun u v => s.trackingInterval ≤ v.timestamp - u.timestamp)
      (p.2.trackingPoints.drop 1))

section HelperLemmas

theorem alookup_dinsert_self {α β : Type} [DecidableEq α]
    (l : List (α × β)) (k : α) (v : β) : alookup (dinsert l k v) k = some v := by
  induction l with
  | nil => simp [alookup, dinsert]
  | cons p rest ih =>
    obtain ⟨pk, pv⟩ := p
    by_cases h : pk = k
    · simp [dinsert, alookup, h]
    · simp [dinsert, alookup, h, ih]

theorem alookup_dinsert_ne {α β : Type} [DecidableEq α]
    (l : List (α × β)) (k k' : α) (v : β) (h : k' ≠ k) :
    alookup (dinsert l k v) k' = alookup l k' := by
  induction l with
  | nil =>
    simp only [dinsert, alookup, if_neg (fun hh : k = k' => h hh.symm)]
  | cons p rest ih =>
    obtain ⟨pk, pv⟩ := p
    by_cases hk : pk = k
    · subst hk
      simp only [dinsert, if_pos rfl, alookup,
        if_neg (fun hh : pk = k' => h hh.symm)]
    · simp only [dinsert, if_neg hk, alookup]
      by_cases hk' : pk = k'
      · simp [hk']
      · simp [hk', ih]

theorem mem_dinsert {α β : Type} [DecidableEq α]
    (l : List (α × β)) (k : α) (v : β) (p : α × β) (hmem : p ∈ dinsert l k v) :
    p = (k, v) ∨ p ∈ l := by
  induction l with
  | nil => simpa [dinsert] using hmem
  | cons q rest ih =>
    obtain ⟨qk, qv⟩ := q
    by_cases h : qk = k
    · subst h
      simp only [dinsert, if_pos rfl] at hmem
      rcases List.mem_cons.mp hmem with h1 | h1
      · exact Or.inl h1
      · exact Or.inr (List.mem_cons_of_mem _ h1)
    · simp only [dinsert, if_neg h] at hmem
      rcases List.mem_cons.mp hmem with h1 | h1
      · exact Or.inr (h1 ▸ List.mem_cons_self _ _)
      · rcases ih h1 with h2 | h2
        · exact Or.inl h2
        · exact Or.inr (List.mem_cons_of_mem _ h2)

theorem alookup_mem {α β : Type} [DecidableEq α]
    (l : List (α × β)) (k : α) (v : β) (h : alookup l k = some v) : (k, v) ∈ l := by
  induction l with
  | nil => simp [alookup] at h
  | cons p rest ih =>
    obtain ⟨pk, pv⟩ := p
    by_cases hk : pk = k
    · subst hk
      simp [alookup] at h
      subst h
      exact List.mem_cons_self _ _
    · simp only [alookup, if_neg hk] at h
      exact List.mem_cons_of_mem _ (ih h)

/-- A below-threshold detection whose key has no binding is skipped: only
the trajectory record changes (vessel_mcmot.py lines 156-158). -/
theorem small_unbound_skip (s : ClassState) (cam : Nat) (d : Detection)
    (hnb : lookupBinding s.localToGlobal cam d.localId = none)
    (hsmall : d.area < s.sizeThreshold) :
    processDetection s cam d =
      ({ s with vesselTrajectory := dinsert s.vesselTrajectory d.localId d.bbox },
       Outcome.skipped, none) := by
  simp [processDetection, matchWithGallery, hnb, hsmall, hsmall.not_le]

/-- On camera 1 (empty predecessor scope) an unbound above-threshold
detection always registers a fresh identity carrying the current counter
value. -/
theorem register_on_camera1 (s : ClassState) (d : Detection)
    (hnb : lookupBinding s.localToGlobal 1 d.localId = none)
    (hbig : s.sizeThreshold ≤ d.area) :
    (processDetection s 1 d).2 = (Outcome.resolved s.globalIdCounter, some s.globalIdCounter) := by
  simp [processDetection, matchWithGallery, filteredGalleryOf, galleryIdsOf, hnb, hbig,
    not_lt.mpr hbig, cameraQueryScope, List.any_nil, List.filter_false, finishResolution,
    registerObject, updateGalleryFeature, alookup_dinsert_self, alookup]


theorem alookup_isSome_of_mem {α β : Type} [DecidableEq α]
    (l : List (α × β)) (k : α) (v : β) (h : (k, v) ∈ l) : (alookup l k).isSome := by
  induction l with
  | nil => simp at h
  | cons p rest ih =>
    obtain ⟨pk, pv⟩ := p
    by_cases hk : pk = k
    · simp [alookup, hk]
    · rcases List.mem_cons.mp h with h1 | h1
      · exact absurd (congrArg Prod.fst h1).symm hk
      · simpa [alookup, hk] using ih h1

theorem alookup_dinsert_isSome_pres {α β : Type} [DecidableEq α]
    (l : List (α × β)) (k k' : α) (v : β) (h : (alookup l k').isSome) :
    (alookup (dinsert l k v) k').isSome := by
  by_cases hk : k' = k
  · subst hk
    simp [alookup_dinsert_self]
  · simpa [alookup_dinsert_ne _ _ _ _ hk] using h

theorem dinsert_ne_nil {α β : Type} [DecidableEq α] (l : List (α × β)) (k : α) (v : β) :
    dinsert l k v ≠ [] := by
  cases l with
  | nil => simp [dinsert]
  | cons p rest =>
    obtain ⟨pk, pv⟩ := p
    by_cases h : pk = k <;> simp [dinsert, h]

theorem alookup_filter_ne {α β : Type} [DecidableEq α] (l : List (α × β)) (k g : α)
    (hk : k ≠ g) :
    alookup (l.filter (fun p => decide (p.1 ≠ g))) k = alookup l k := by
  induction l with
  | nil => simp [alookup]
  | cons p rest ih =>
    obtain ⟨pk, pv⟩ := p
    by_cases hpg : pk = g
    · subst hpg
      simp only [List.filter_cons]
      rw [if_neg (by simp)]
      rw [show alookup ((pk, pv) :: rest) k = alookup rest k from by
        simp only [alookup, if_neg (fun h : pk = k => hk h.symm)]]
      exact ih
    · simp only [List.filter_cons]
      rw [if_pos (by simp [hpg])]
      by_cases hpk : pk = k
      · simp [alookup, hpk]
      · simp only [alookup, if_neg hpk]
        exact ih

theorem ugf_frame (s : ClassState) (cam g : Nat) (f : List ℚ) (a : ℚ) :
    (updateGalleryFeature s cam g f a).1.localToGlobal = s.localToGlobal ∧
    (updateGalleryFeature s cam g f a).1.globalIdCounter = s.globalIdCounter ∧
    (updateGalleryFeature s cam g f a).1.faissIndex = s.faissIndex ∧
    (updateGalleryFeature s cam g f a).1.sizeThreshold = s.sizeThreshold ∧
    (updateGalleryFeature s cam g f a).1.matchThreshold = s.matchThreshold ∧
    (updateGalleryFeature s cam g f a).1.vesselTrajectory = s.vesselTrajectory := by
  unfold updateGalleryFeature
  split <;> simp [apply_ite]

theorem ugf_gallery_isSome (s : ClassState) (cam g : Nat) (f : List ℚ) (a : ℚ) (k : Nat)
    (h : (alookup s.gallery k).isSome) :
    (alookup (updateGalleryFeature s cam g f a).1.gallery k).isSome := by
  unfold updateGalleryFeature
  split
  · by_cases hk : k = g
    · subst hk
      simp only [apply_ite]
      split <;> simp [alookup_dinsert_self, h]
    · simp only [apply_ite]
      split <;> simp [alookup_dinsert_ne _ _ _ _ hk, h]
  · simp only [apply_ite]
    split <;> simp [h]

theorem ugf_cases (s : ClassState) (cam g : Nat) (f : List ℚ) (a : ℚ) :
    updateGalleryFeature s cam g f a = (s, false) ∨
    (maxRec s g cam < a ∧
     ((∃ mr e, alookup s.maxSizeRecord g = some mr ∧ alookup s.gallery g = some e ∧
        updateGalleryFeature s cam g f a =
          ({ s with maxSizeRecord := dinsert s.maxSizeRecord g (dinsert mr cam a),
                    gallery := dinsert s.gallery g ⟨dinsert e.cameraFeatures cam f⟩ }, false)) ∨
      (∃ mr, alookup s.maxSizeRecord g = some mr ∧ alookup s.gallery g = none ∧
        updateGalleryFeature s cam g f a =
          ({ s with maxSizeRecord := dinsert s.maxSizeRecord g (dinsert mr cam a) }, true)) ∨
      (∃ e, alookup s.maxSizeRecord g = none ∧ alookup s.gallery g = some e ∧
        updateGalleryFeature s cam g f a =
          ({ s with gallery := dinsert s.gallery g ⟨dinsert e.cameraFeatures cam f⟩ }, false)) ∨
      (alookup s.maxSizeRecord g = none ∧ alookup s.gallery g = none ∧
        updateGalleryFeature s cam g f a = (s, true)))) := by
  have hdef : (alookup ((alookup s.maxSizeRecord g).getD []) cam).getD 0 = maxRec s g cam := rfl
  by_cases hlt : maxRec s g cam < a
  · right
    refine ⟨hlt, ?_⟩
    rcases hmr : alookup s.maxSizeRecord g with _ | mr <;>
      rcases hgal : alookup s.gallery g with _ | e
    · right; right; right
      refine ⟨rfl, rfl, ?_⟩
      simp only [updateGalleryFeature, hmr, hgal]
      rw [if_pos (show a > (alookup (Option.getD (none : Option (List (Nat × ℚ))) []) cam).getD 0
        from by rw [← hmr]; exact hdef ▸ hlt)]
    · right; right; left
      refine ⟨e, rfl, rfl, ?_⟩
      simp only [updateGalleryFeature, hmr, hgal]
      rw [if_pos (show a > (alookup (Option.getD (none : Option (List (Nat × ℚ))) []) cam).getD 0
        from by rw [← hmr]; exact hdef ▸ hlt)]
    · right; left
      refine ⟨mr, rfl, rfl, ?_⟩
      simp only [updateGalleryFeature, hmr, hgal]
      rw [if_pos (show a > (alookup (Option.getD (some mr) []) cam).getD 0
        from by rw [← hmr]; exact hdef ▸ hlt)]
    · left
      refine ⟨mr, e, rfl, rfl, ?_⟩
      simp only [updateGalleryFeature, hmr, hgal]
      rw [if_pos (show a > (alookup (Option.getD (some mr) []) cam).getD 0
        from by rw [← hmr]; exact hdef ▸ hlt)]
  · left
    simp only [updateGalleryFeature]
    rw [if_neg (show ¬ a > (alookup ((alookup s.maxSizeRecord g).getD []) cam).getD 0
      from hdef ▸ hlt)]

theorem ugf_post (s : ClassState) (cam g : Nat) (f : List ℚ) (a : ℚ) (mr : List (Nat × ℚ))
    (e : Entry) (hmsr : alookup s.maxSizeRecord g = some mr)
    (hgal : alookup s.gallery g = some e) :
    (maxRec s g cam < a →
      galleryFeature (updateGalleryFeature s cam g f a).1 g cam = some f ∧
      maxRec (updateGalleryFeature s cam g f a).1 g cam = a ∧
      (updateGalleryFeature s cam g f a).2 = false) ∧
    (¬ maxRec s g cam < a → updateGalleryFeature s cam g f a = (s, false)) := by
  have hmax : maxRec s g cam = (alookup mr cam).getD 0 := by
    simp [maxRec, hmsr]
  constructor
  · intro hlt
    simp only [updateGalleryFeature, hmsr, hgal, Option.getD_some]
    rw [if_pos (show a > (alookup mr cam).getD 0 from hmax ▸ hlt)]
    refine ⟨?_, ?_, rfl⟩
    · simp [galleryFeature, alookup_dinsert_self]
    · simp [maxRec, alookup_dinsert_self]
  · intro hge
    simp only [updateGalleryFeature, hmsr, hgal, Option.getD_some]
    rw [if_neg (show ¬ a > (alookup mr cam).getD 0 from hmax ▸ hge)]

theorem ugf_post_nocrash (s : ClassState) (cam g : Nat) (f : List ℚ) (a : ℚ)
    (mr : List (Nat × ℚ)) (hmsr : alookup s.maxSizeRecord g = some mr)
    (hnc : (updateGalleryFeature s cam g f a).2 = false) :
    (maxRec s g cam < a →
      galleryFeature (updateGalleryFeature s cam g f a).1 g cam = some f ∧
      maxRec (updateGalleryFeature s cam g f a).1 g cam = a) ∧
    (¬ maxRec s g cam < a → updateGalleryFeature s cam g f a = (s, false)) := by
  have hmax : maxRec s g cam = (alookup mr cam).getD 0 := by
    simp [maxRec, hmsr]
  rcases hgal : alookup s.gallery g with _ | e
  · constructor
    · intro hlt
      exfalso
      have : (updateGalleryFeature s cam g f a).2 = true := by
        simp only [updateGalleryFeature, hmsr, hgal, Option.getD_some]
        rw [if_pos (show a > (alookup mr cam).getD 0 from hmax ▸ hlt)]
      rw [this] at hnc
      exact Bool.true_eq_false.mp hnc
    · intro hge
      simp only [updateGalleryFeature, hmsr, hgal, Option.getD_some]
      rw [if_neg (show ¬ a > (alookup mr cam).getD 0 from hmax ▸ hge)]
  · have hp := ugf_post s cam g f a mr e hmsr hgal
    exact ⟨fun hlt => ⟨(hp.1 hlt).1, (hp.1 hlt).2.1⟩, hp.2⟩

theorem ugf_other_entries (s : ClassState) (cam g : Nat) (f : List ℚ) (a : ℚ)
    (mr : List (Nat × ℚ)) (hmsr : alookup s.maxSizeRecord g = some mr) :
    ∀ g' c', ¬(g' = g ∧ c' = cam) →
      galleryFeature (updateGalleryFeature s cam g f a).1 g' c' = galleryFeature s g' c' ∧
      maxRec (updateGalleryFeature s cam g f a).1 g' c' = maxRec s g' c' := by
  intro g' c' hne
  simp only [updateGalleryFeature, hmsr, Option.getD_some]
  by_cases hlt : (alookup mr cam).getD 0 < a
  · rw [if_pos hlt]
    have hmsr' : ∀ c'', ¬(g' = g ∧ c'' = cam) →
        maxRec { s with maxSizeRecord := dinsert s.maxSizeRecord g (dinsert mr cam a) } g' c'' =
          maxRec s g' c'' := by
      intro c'' hne'
      by_cases hg' : g' = g
      · subst hg'
        have hc'' : c'' ≠ cam := fun hc => hne' ⟨rfl, hc⟩
        simp [maxRec, alookup_dinsert_self, hmsr, alookup_dinsert_ne mr cam c'' a hc'']
      · simp [maxRec, alookup_dinsert_ne s.maxSizeRecord g g' _ hg']
    rcases hgal : alookup s.gallery g with _ | e <;> simp only [hgal]
    · exact ⟨rfl, hmsr' c' hne⟩
    · constructor
      · by_cases hg' : g' = g
        · subst hg'
          have hc' : c' ≠ cam := fun hc => hne ⟨rfl, hc⟩
          simp [galleryFeature, alookup_dinsert_self, hgal,
            alookup_dinsert_ne e.cameraFeatures cam c' f hc']
        · simp [galleryFeature, alookup_dinsert_ne s.gallery g g' _ hg']
      · exact hmsr' c' hne
  · rw [if_neg hlt]
    exact ⟨rfl, rfl⟩

theorem ugf_feature_change (s : ClassState) (cam g : Nat) (f : List ℚ) (a : ℚ)
    (g' c' : Nat) (f1 f2 : List ℚ)
    (hold : galleryFeature s g' c' = some f1)
    (hnew : galleryFeature (updateGalleryFeature s cam g f a).1 g' c' = some f2)
    (hne : f2 ≠ f1) :
    g' = g ∧ c' = cam ∧ maxRec s g cam < a := by
  unfold updateGalleryFeature at hnew
  by_cases hcond : (alookup ((alookup s.maxSizeRecord g).getD []) cam).getD 0 < a
  · rw [if_pos hcond] at hnew
    rcases hgal : alookup s.gallery g with _ | e
    · rw [hgal] at hnew
      simp only [galleryFeature] at hold hnew
      rw [hold] at hnew
      exact absurd (Eq.symm (by simpa using hnew)) hne
    · rw [hgal] at hnew
      by_cases hg' : g' = g
      · subst hg'
        simp only [galleryFeature, alookup_dinsert_self, Option.some_bind] at hnew
        by_cases hc' : c' = cam
        · subst hc'
          exact ⟨rfl, rfl, by simpa [maxRec] using hcond⟩
        · rw [alookup_dinsert_ne e.cameraFeatures cam c' f hc'] at hnew
          simp only [galleryFeature, hgal, Option.some_bind] at hold
          rw [hold] at hnew
          exact absurd (Eq.symm (by simpa using hnew)) hne
      · simp only [galleryFeature,
          alookup_dinsert_ne s.gallery g g' ⟨dinsert e.cameraFeatures cam f⟩ hg'] at hnew
        simp only [galleryFeature] at hold
        rw [hold] at hnew
        exact absurd (Eq.symm (by simpa using hnew)) hne
  · rw [if_neg hcond] at hnew
    simp only [galleryFeature] at hold hnew
    rw [hold] at hnew
    exact absurd (Eq.symm (by simpa using hnew)) hne

theorem ugf_msr_isSome (S : ClassState) (cam g : Nat) (f : List ℚ) (a : ℚ) (k : Nat)
    (h : (alookup S.maxSizeRecord k).isSome) :
    (alookup (updateGalleryFeature S cam g f a).1.maxSizeRecord k).isSome := by
  rcases ugf_cases S cam g f a with heq | ⟨hlt, hcase⟩
  · rw [heq]; exact h
  · rcases hcase with ⟨mr, e, hmr, hgal, heq⟩ | ⟨mr, hmr, hgal, heq⟩ |
      ⟨e, hmr, hgal, heq⟩ | ⟨hmr, hgal, heq⟩ <;> rw [heq] <;>
      first
        | exact h
        | exact alookup_dinsert_isSome_pres _ _ _ _ h

theorem matchWithGallery_traj (s : ClassState) (t : List (Nat × BBox)) (q : List ℚ)
    (cam : Nat) (a : ℚ) :
    matchWithGallery { s with vesselTrajectory := t } q cam a = matchWithGallery s q cam a := rfl

theorem lookupBinding_bindLocal_self (m : List (Nat × List (Nat × Nat))) (cam lid g : Nat) :
    lookupBinding (bindLocal m cam lid g) cam lid = some g := by
  simp [lookupBinding, bindLocal, alookup_dinsert_self]

theorem WFBound_lookup (s : ClassState) (cam lid g : Nat) (hwf : WFBound s)
    (hb : lookupBinding s.localToGlobal cam lid = some g) :
    (alookup s.gallery g).isSome := by
  unfold lookupBinding at hb
  rcases hAm : alookup s.localToGlobal cam with _ | inner <;> rw [hAm] at hb
  · exact absurd hb (by simp)
  · exact hwf _ (alookup_mem _ _ _ hAm) _ (alookup_mem _ _ _ hb)

theorem bound_resolves (s : ClassState) (cam : Nat) (d : Detection) (g : Nat)
    (hb : lookupBinding s.localToGlobal cam d.localId = some g)
    (hg : (alookup s.gallery g).isSome) :
    (processDetection s cam d).2.1 = Outcome.resolved g ∧
    (processDetection s cam d).2.2 = none := by
  obtain ⟨e, he⟩ := Option.isSome_iff_exists.mp hg
  simp only [processDetection]
  rw [hb]
  simp only [finishResolution, updateGalleryFeature]
  split
  · simp [he]
  · simp

theorem matchWithGallery_found_isSome (s : ClassState) (q : List ℚ) (cam : Nat) (a : ℚ)
    (g : Nat) (h : matchWithGallery s q cam a = .found g) :
    (alookup s.gallery g).isSome := by
  unfold matchWithGallery at h
  by_cases h1 : a < s.sizeThreshold
  · simp [h1] at h
  rw [if_neg h1] at h
  by_cases h2 : (filteredGalleryOf s cam).length = 0
  · simp [h2] at h
  rw [if_neg h2] at h
  by_cases h3 : (galleryIdsOf s cam).length = 0
  · simp [h3] at h
  rw [if_neg h3] at h
  rcases hfs : faissSearch s.faissIndex q with _ | ⟨dist, i⟩ <;> simp only [hfs] at h
  · simp at h
  · rcases hget : (galleryIdsOf s cam).get? i with _ | gid <;> simp only [hget] at h
    · simp at h
    · by_cases hd : dist < s.matchThreshold
      · rw [if_pos hd] at h
        have hgid : gid = g := by simpa using h
        subst hgid
        have hmem : gid ∈ galleryIdsOf s cam := List.get?_mem hget
        rw [galleryIdsOf, List.mem_filterMap] at hmem
        obtain ⟨p, hp, hfp⟩ := hmem
        rw [Option.map_eq_some'] at hfp
        obtain ⟨w, hw, hp1⟩ := hfp
        subst hp1
        exact alookup_isSome_of_mem _ _ _ (List.mem_of_mem_filter hp)
      · rw [if_neg hd] at h
        simp at h

theorem processDetection_path (s : ClassState) (cam : Nat) (d : Detection) :
    (∃ g0, lookupBinding s.localToGlobal cam d.localId = some g0 ∧
      processDetection s cam d =
        finishResolution { s with vesselTrajectory := dinsert s.vesselTrajectory d.localId d.bbox }
          cam d g0 none) ∨
    (lookupBinding s.localToGlobal cam d.localId = none ∧
      ((∃ g1, matchWithGallery s d.feature cam d.area = .found g1 ∧
        processDetection s cam d =
          finishResolution
            { s with vesselTrajectory := dinsert s.vesselTrajectory d.localId d.bbox,
                     localToGlobal := bindLocal s.localToGlobal cam d.localId g1 }
            cam d g1 none) ∨
       (matchWithGallery s d.feature cam d.area = .noMatch ∧ s.sizeThreshold ≤ d.area ∧
        processDetection s cam d =
          finishResolution
            { s with vesselTrajectory := dinsert s.vesselTrajectory d.localId d.bbox,
                     globalIdCounter := s.globalIdCounter + 1,
                     gallery := dinsert s.gallery s.globalIdCounter ⟨[(cam, d.feature)]⟩,
                     faissIndex := s.faissIndex ++ [d.feature],
                     maxSizeRecord := dinsert s.maxSizeRecord s.globalIdCounter [(cam, d.area)],
                     localToGlobal := bindLocal s.localToGlobal cam d.localId s.globalIdCounter }
            cam d s.globalIdCounter (some s.globalIdCounter)) ∨
       (matchWithGallery s d.feature cam d.area = .noMatch ∧ d.area < s.sizeThreshold ∧
        processDetection s cam d =
          ({ s with vesselTrajectory := dinsert s.vesselTrajectory d.localId d.bbox },
           Outcome.skipped, none)) ∨
       (matchWithGallery s d.feature cam d.area = .crash ∧
        processDetection s cam d =
          ({ s with vesselTrajectory := dinsert s.vesselTrajectory d.localId d.bbox },
           Outcome.crashed, none)))) := by
  rcases hb : lookupBinding s.localToGlobal cam d.localId with _ | g0
  · right
    refine ⟨rfl, ?_⟩
    rcases hm : matchWithGallery s d.feature cam d.area with g1 | _ | _
    · left
      refine ⟨g1, rfl, ?_⟩
      simp only [processDetection, hb, matchWithGallery_traj, hm]
    · by_cases hbig : d.area < s.sizeThreshold
      · right; right; left
        refine ⟨rfl, hbig, ?_⟩
        simp only [processDetection, hb, matchWithGallery_traj, hm,
          if_neg (not_le.mpr hbig)]
      · right; left
        refine ⟨rfl, not_lt.mp hbig, ?_⟩
        simp only [processDetection, hb, matchWithGallery_traj, hm,
          if_pos (show d.area ≥ s.sizeThreshold from not_lt.mp hbig), registerObject]
    · right; right; right
      refine ⟨rfl, ?_⟩
      simp only [processDetection, hb, matchWithGallery_traj, hm]
  · left
    refine ⟨g0, rfl, ?_⟩
    simp only [processDetection, hb]

theorem finishResolution_state_resolved (s' : ClassState) (cam : Nat) (d : Detection)
    (g0 g : Nat) (al : Option Nat)
    (h : (finishResolution s' cam d g0 al).2.1 = Outcome.resolved g) :
    g0 = g ∧
    (finishResolution s' cam d g0 al).1.localToGlobal = s'.localToGlobal ∧
    ((alookup s'.gallery g).isSome →
      (alookup (finishResolution s' cam d g0 al).1.gallery g).isSome) := by
  simp only [finishResolution] at h ⊢
  by_cases hc : (updateGalleryFeature s' cam g0 d.feature d.area).2
  · rw [if_pos hc] at h
    exact absurd h (by simp)
  · rw [if_neg hc] at h
    have hg : g0 = g := by simpa using h
    exact ⟨hg, (ugf_frame s' cam g0 d.feature d.area).1,
      fun hh => ugf_gallery_isSome s' cam g0 d.feature d.area g hh⟩

theorem processDetection_resolved_state (s : ClassState) (cam : Nat) (d : Detection) (g : Nat)
    (hwf : WFBound s)
    (h : (processDetection s cam d).2.1 = Outcome.resolved g) :
    lookupBinding (processDetection s cam d).1.localToGlobal cam d.localId = some g ∧
    (alookup (processDetection s cam d).1.gallery g).isSome := by
  rcases processDetection_path s cam d with ⟨g0, hb, heq⟩ | ⟨hb, hcase⟩
  · rw [heq] at h ⊢
    obtain ⟨hg0, hl2g, hgal⟩ := finishResolution_state_resolved _ cam d g0 g none h
    subst hg0
    rw [hl2g]
    exact ⟨hb, hgal (WFBound_lookup s cam d.localId g0 hwf hb)⟩
  · rcases hcase with ⟨g1, hm, heq⟩ | ⟨hm, hbig, heq⟩ | ⟨hm, hsmall, heq⟩ | ⟨hm, heq⟩
    · rw [heq] at h ⊢
      obtain ⟨hg1, hl2g, hgal⟩ := finishResolution_state_resolved _ cam d g1 g none h
      subst hg1
      rw [hl2g]
      exact ⟨lookupBinding_bindLocal_self _ cam d.localId g1,
        hgal (matchWithGallery_found_isSome s d.feature cam d.area g1 hm)⟩
    · rw [heq] at h ⊢
      obtain ⟨hg0, hl2g, hgal⟩ :=
        finishResolution_state_resolved _ cam d s.globalIdCounter g (some s.globalIdCounter) h
      subst hg0
      rw [hl2g]
      refine ⟨lookupBinding_bindLocal_self _ cam d.localId s.globalIdCounter, ?_⟩
      refine hgal ?_
      have hsome :
          (alookup (dinsert s.gallery s.globalIdCounter ⟨[(cam, d.feature)]⟩)
            s.globalIdCounter).isSome := by
        rw [alookup_dinsert_self]
        rfl
      exact hsome
    · rw [heq] at h
      exact absurd h (by simp)
    · rw [heq] at h
      exact absurd h (by simp)

theorem processDetection_feature_change (s : ClassState) (cam : Nat) (d : Detection)
    (hkeys : ∀ p ∈ s.gallery, p.1 < s.globalIdCounter)
    (g' c' : Nat) (f1 f2 : List ℚ)
    (hold : galleryFeature s g' c' = some f1)
    (hnew : galleryFeature (processDetection s cam d).1 g' c' = some f2)
    (hne : f2 ≠ f1) :
    c' = cam ∧ maxRec s g' c' < d.area := by
  rcases processDetection_path s cam d with ⟨g0, hb, heq⟩ |
    ⟨hb, ⟨g1, hm, heq⟩ | ⟨hm, hbig, heq⟩ | ⟨hm, hsmall, heq⟩ | ⟨hm, heq⟩⟩
  · rw [heq] at hnew
    obtain ⟨hg, hc, hmax⟩ := ugf_feature_change
      { s with vesselTrajectory := dinsert s.vesselTrajectory d.localId d.bbox }
      cam g0 d.feature d.area g' c' f1 f2 hold hnew hne
    subst hg
    exact ⟨hc, by rw [hc]; exact hmax⟩
  · rw [heq] at hnew
    obtain ⟨hg, hc, hmax⟩ := ugf_feature_change
      { s with vesselTrajectory := dinsert s.vesselTrajectory d.localId d.bbox,
               localToGlobal := bindLocal s.localToGlobal cam d.localId g1 }
      cam g1 d.feature d.area g' c' f1 f2 hold hnew hne
    subst hg
    exact ⟨hc, by rw [hc]; exact hmax⟩
  · -- registration path: existing entries have id < counter, the fresh entry is the counter
    rw [heq] at hnew
    have hg'lt : g' < s.globalIdCounter := by
      rcases hgal : alookup s.gallery g' with _ | e
      · rw [galleryFeature, hgal] at hold
        exact absurd hold (by simp)
      · exact hkeys _ (alookup_mem _ _ _ hgal)
    have hg'ne : g' ≠ s.globalIdCounter := Nat.ne_of_lt hg'lt
    have hold3 : galleryFeature
        ({ s with vesselTrajectory := dinsert s.vesselTrajectory d.localId d.bbox,
                  globalIdCounter := s.globalIdCounter + 1,
                  gallery := dinsert s.gallery s.globalIdCounter ⟨[(cam, d.feature)]⟩,
                  faissIndex := s.faissIndex ++ [d.feature],
                  maxSizeRecord := dinsert s.maxSizeRecord s.globalIdCounter [(cam, d.area)],
                  localToGlobal := bindLocal s.localToGlobal cam d.localId s.globalIdCounter } :
          ClassState) g' c' = some f1 := by
      rw [galleryFeature]
      rw [show alookup (dinsert s.gallery s.globalIdCounter ⟨[(cam, d.feature)]⟩) g' =
          alookup s.gallery g' from alookup_dinsert_ne _ _ _ _ hg'ne]
      exact hold
    obtain ⟨hg, hc, hmax⟩ := ugf_feature_change
      { s with vesselTrajectory := dinsert s.vesselTrajectory d.localId d.bbox,
               globalIdCounter := s.globalIdCounter + 1,
               gallery := dinsert s.gallery s.globalIdCounter ⟨[(cam, d.feature)]⟩,
               faissIndex := s.faissIndex ++ [d.feature],
               maxSizeRecord := dinsert s.maxSizeRecord s.globalIdCounter [(cam, d.area)],
               localToGlobal := bindLocal s.localToGlobal cam d.localId s.globalIdCounter }
      cam s.globalIdCounter d.feature d.area g' c' f1 f2 hold3 hnew hne
    exact absurd hg hg'ne
  · rw [heq] at hnew
    rw [show galleryFeature
        ({ s with vesselTrajectory := dinsert s.vesselTrajectory d.localId d.bbox } : ClassState)
        g' c' = galleryFeature s g' c' from rfl, hold] at hnew
    exact absurd (Eq.symm (by simpa using hnew)) hne
  · rw [heq] at hnew
    rw [show galleryFeature
        ({ s with vesselTrajectory := dinsert s.vesselTrajectory d.localId d.bbox } : ClassState)
        g' c' = galleryFeature s g' c' from rfl, hold] at hnew
    exact absurd (Eq.symm (by simpa using hnew)) hne

theorem processDetection_resolved_post (s : ClassState) (cam : Nat) (d : Detection) (g : Nat)
    (h : (processDetection s cam d).2.1 = Outcome.resolved g) :
    ((processDetection s cam d).2.2 = some g →
      galleryFeature (processDetection s cam d).1 g cam = some d.feature ∧
      maxRec (processDetection s cam d).1 g cam = d.area) ∧
    ((processDetection s cam d).2.2 = none → (alookup s.maxSizeRecord g).isSome →
      ((maxRec s g cam < d.area →
        galleryFeature (processDetection s cam d).1 g cam = some d.feature ∧
        maxRec (processDetection s cam d).1 g cam = d.area) ∧
       (¬ maxRec s g cam < d.area →
        galleryFeature (processDetection s cam d).1 g cam = galleryFeature s g cam ∧
        maxRec (processDetection s cam d).1 g cam = maxRec s g cam))) := by
  rcases processDetection_path s cam d with ⟨g0, hb, heq⟩ |
    ⟨hb, ⟨g1, hm, heq⟩ | ⟨hm, hbig, heq⟩ | ⟨hm, hsmall, heq⟩ | ⟨hm, heq⟩⟩
  · rw [heq] at h ⊢
    simp only [finishResolution] at h ⊢
    by_cases hc : (updateGalleryFeature
        { s with vesselTrajectory := dinsert s.vesselTrajectory d.localId d.bbox }
        cam g0 d.feature d.area).2
    · rw [if_pos hc] at h
      exact absurd h (by simp)
    · rw [if_neg hc] at h
      obtain rfl : g0 = g := by simpa using h
      constructor
      · intro habs
        exact absurd habs (by simp)
      · intro _ hmsrS
        obtain ⟨mr, hmr⟩ := Option.isSome_iff_exists.mp hmsrS
        have hp := ugf_post_nocrash
          { s with vesselTrajectory := dinsert s.vesselTrajectory d.localId d.bbox }
          cam g0 d.feature d.area mr hmr (Bool.not_eq_true _ ▸ hc)
        refine ⟨fun hlt => hp.1 hlt, fun hge => ?_⟩
        have h2 := hp.2 hge
        rw [h2]
        exact ⟨rfl, rfl⟩
  · -- matched path
    rw [heq] at h ⊢
    simp only [finishResolution] at h ⊢
    by_cases hc : (updateGalleryFeature
        { s with vesselTrajectory := dinsert s.vesselTrajectory d.localId d.bbox,
                 localToGlobal := bindLocal s.localToGlobal cam d.localId g1 }
        cam g1 d.feature d.area).2
    · rw [if_pos hc] at h
      exact absurd h (by simp)
    · rw [if_neg hc] at h
      obtain rfl : g1 = g := by simpa using h
      constructor
      · intro habs
        exact absurd habs (by simp)
      · intro _ hmsrS
        obtain ⟨mr, hmr⟩ := Option.isSome_iff_exists.mp hmsrS
        have hp := ugf_post_nocrash
          { s with vesselTrajectory := dinsert s.vesselTrajectory d.localId d.bbox,
                   localToGlobal := bindLocal s.localToGlobal cam d.localId g1 }
          cam g1 d.feature d.area mr hmr (Bool.not_eq_true _ ▸ hc)
        refine ⟨fun hlt => hp.1 hlt, fun hge => ?_⟩
        have h2 := hp.2 hge
        rw [h2]
        exact ⟨rfl, rfl⟩
  · -- registration path
    rw [heq] at h ⊢
    simp only [finishResolution] at h ⊢
    constructor
    · intro halloc
      have hcg : s.globalIdCounter = g := by simpa using halloc
      subst hcg
      have hmr3 : alookup
          (dinsert s.maxSizeRecord s.globalIdCounter [(cam, d.area)]) s.globalIdCounter =
          some [(cam, d.area)] := alookup_dinsert_self _ _ _
      have hgal3 : alookup
          (dinsert s.gallery s.globalIdCounter ⟨[(cam, d.feature)]⟩) s.globalIdCounter =
          some ⟨[(cam, d.feature)]⟩ := alookup_dinsert_self _ _ _
      have hmax3 : maxRec
          ({ s with vesselTrajectory := dinsert s.vesselTrajectory d.localId d.bbox,
                    globalIdCounter := s.globalIdCounter + 1,
                    gallery := dinsert s.gallery s.globalIdCounter ⟨[(cam, d.feature)]⟩,
                    faissIndex := s.faissIndex ++ [d.feature],
                    maxSizeRecord := dinsert s.maxSizeRecord s.globalIdCounter [(cam, d.area)],
                    localToGlobal := bindLocal s.localToGlobal cam d.localId s.globalIdCounter } :
            ClassState) s.globalIdCounter cam = d.area := by
        simp [maxRec, hmr3, alookup]
      have hp := ugf_post_nocrash
        { s with vesselTrajectory := dinsert s.vesselTrajectory d.localId d.bbox,
                 globalIdCounter := s.globalIdCounter + 1,
                 gallery := dinsert s.gallery s.globalIdCounter ⟨[(cam, d.feature)]⟩,
                 faissIndex := s.faissIndex ++ [d.feature],
                 maxSizeRecord := dinsert s.maxSizeRecord s.globalIdCounter [(cam, d.area)],
                 localToGlobal := bindLocal s.localToGlobal cam d.localId s.globalIdCounter }
        cam s.globalIdCounter d.feature d.area [(cam, d.area)] hmr3 ?hnc
      case hnc =>
        have h2 := (ugf_post
          { s with vesselTrajectory := dinsert s.vesselTrajectory d.localId d.bbox,
                   globalIdCounter := s.globalIdCounter + 1,
                   gallery := dinsert s.gallery s.globalIdCounter ⟨[(cam, d.feature)]⟩,
                   faissIndex := s.faissIndex ++ [d.feature],
                   maxSizeRecord := dinsert s.maxSizeRecord s.globalIdCounter [(cam, d.area)],
                   localToGlobal := bindLocal s.localToGlobal cam d.localId s.globalIdCounter }
          cam s.globalIdCounter d.feature d.area [(cam, d.area)] ⟨[(cam, d.feature)]⟩
          hmr3 hgal3).2 (by rw [hmax3]; exact lt_irrefl _)
        rw [h2]
      have h2 := hp.2 (by rw [hmax3]; exact lt_irrefl _)
      rw [h2]
      constructor
      · simp [galleryFeature, hgal3, alookup]
      · exact hmax3
    · intro habs
      exact absurd habs (by simp)
  · -- skipped path: contradiction with a resolved outcome
    rw [heq] at h
    exact absurd h (by simp)
  · -- crash path
    rw [heq] at h
    exact absurd h (by simp)

theorem resolved_alloc_eq (s : ClassState) (cam : Nat) (d : Detection) (g a : Nat)
    (h : (processDetection s cam d).2.1 = Outcome.resolved g)
    (halloc : (processDetection s cam d).2.2 = some a) : a = g := by
  rcases processDetection_path s cam d with ⟨g0, hb, heq⟩ |
    ⟨hb, ⟨g1, hm, heq⟩ | ⟨hm, hbig, heq⟩ | ⟨hm, hsmall, heq⟩ | ⟨hm, heq⟩⟩ <;>
      rw [heq] at h halloc
  · exact absurd halloc (by simp [finishResolution])
  · exact absurd halloc (by simp [finishResolution])
  · have ha : s.globalIdCounter = a := by
      simpa [finishResolution] using halloc
    subst ha
    simp only [finishResolution] at h
    by_cases hc : (updateGalleryFeature
        { s with vesselTrajectory := dinsert s.vesselTrajectory d.localId d.bbox,
                 globalIdCounter := s.globalIdCounter + 1,
                 gallery := dinsert s.gallery s.globalIdCounter ⟨[(cam, d.feature)]⟩,
                 faissIndex := s.faissIndex ++ [d.feature],
                 maxSizeRecord := dinsert s.maxSizeRecord s.globalIdCounter [(cam, d.area)],
                 localToGlobal := bindLocal s.localToGlobal cam d.localId s.globalIdCounter }
        cam s.globalIdCounter d.feature d.area).2
    · rw [if_pos hc] at h
      exact absurd h (by simp)
    · rw [if_neg hc] at h
      simpa using h
  · exact absurd halloc (by simp)
  · exact absurd halloc (by simp)

theorem resolved_msr (s : ClassState) (cam : Nat) (d : Detection) (g : Nat) (hInv : Inv s)
    (h : (processDetection s cam d).2.1 = Outcome.resolved g)
    (halloc : (processDetection s cam d).2.2 = none) :
    (alookup s.maxSizeRecord g).isSome := by
  rcases processDetection_path s cam d with ⟨g0, hb, heq⟩ |
    ⟨hb, ⟨g1, hm, heq⟩ | ⟨hm, hbig, heq⟩ | ⟨hm, hsmall, heq⟩ | ⟨hm, heq⟩⟩ <;>
      rw [heq] at h halloc
  · obtain ⟨hg0, _, _⟩ := finishResolution_state_resolved _ cam d g0 g none h
    subst hg0
    have hgal := WFBound_lookup s cam d.localId g0 hInv.2.2.2 hb
    obtain ⟨e, he⟩ := Option.isSome_iff_exists.mp hgal
    exact hInv.2.2.1 (g0, e) (alookup_mem _ _ _ he)
  · obtain ⟨hg1, _, _⟩ := finishResolution_state_resolved _ cam d g1 g none h
    subst hg1
    have hgal := matchWithGallery_found_isSome s d.feature cam d.area g1 hm
    obtain ⟨e, he⟩ := Option.isSome_iff_exists.mp hgal
    exact hInv.2.2.1 (g1, e) (alookup_mem _ _ _ he)
  · exact absurd halloc (by simp [finishResolution])
  · exact absurd h (by simp)
  · exact absurd h (by simp)

theorem pd_msr_isSome (s : ClassState) (cam : Nat) (d : Detection) (k : Nat)
    (h : (alookup s.maxSizeRecord k).isSome) :
    (alookup (processDetection s cam d).1.maxSizeRecord k).isSome := by
  rcases processDetection_path s cam d with ⟨g0, hb, heq⟩ |
    ⟨hb, ⟨g1, hm, heq⟩ | ⟨hm, hbig, heq⟩ | ⟨hm, hsmall, heq⟩ | ⟨hm, heq⟩⟩ <;> rw [heq]
  · exact ugf_msr_isSome _ cam g0 d.feature d.area k h
  · exact ugf_msr_isSome _ cam g1 d.feature d.area k h
  · exact ugf_msr_isSome _ cam s.globalIdCounter d.feature d.area k
      (alookup_dinsert_isSome_pres _ _ _ _ h)
  · exact h
  · exact h

theorem pd_alloc_msr (s : ClassState) (cam : Nat) (d : Detection) (a : Nat)
    (halloc : (processDetection s cam d).2.2 = some a) :
    (alookup (processDetection s cam d).1.maxSizeRecord a).isSome := by
  rcases processDetection_path s cam d with ⟨g0, hb, heq⟩ |
    ⟨hb, ⟨g1, hm, heq⟩ | ⟨hm, hbig, heq⟩ | ⟨hm, hsmall, heq⟩ | ⟨hm, heq⟩⟩ <;>
      rw [heq] at halloc ⊢
  · exact absurd halloc (by simp [finishResolution])
  · exact absurd halloc (by simp [finishResolution])
  · have ha : s.globalIdCounter = a := by
      simpa [finishResolution] using halloc
    subst ha
    exact ugf_msr_isSome _ cam s.globalIdCounter d.feature d.area s.globalIdCounter
      (by simp [alookup_dinsert_self])
  · exact absurd halloc (by simp)
  · exact absurd halloc (by simp)

theorem Inv_ugf (S : ClassState) (cam g : Nat) (f : List ℚ) (a : ℚ) (h : Inv S) :
    Inv (updateGalleryFeature S cam g f a).1 := by
  obtain ⟨h1, h2, h3, h4⟩ := h
  rcases ugf_cases S cam g f a with heq | ⟨hlt, hcase⟩
  · rw [heq]
    exact ⟨h1, h2, h3, h4⟩
  · rcases hcase with ⟨mr, e, hmr, hgal, heq⟩ | ⟨mr, hmr, hgal, heq⟩ |
      ⟨e, hmr, hgal, heq⟩ | ⟨hmr, hgal, heq⟩ <;> rw [heq]
    · refine ⟨?_, ?_, ?_, ?_⟩
      · intro p hp
        rcases mem_dinsert _ _ _ _ hp with hp1 | hp1
        · rw [hp1]
          exact h1 (g, e) (alookup_mem _ _ _ hgal)
        · exact h1 _ hp1
      · intro p hp
        rcases mem_dinsert _ _ _ _ hp with hp1 | hp1
        · rw [hp1]
          exact h2 (g, mr) (alookup_mem _ _ _ hmr)
        · exact h2 _ hp1
      · intro p hp
        rcases mem_dinsert _ _ _ _ hp with hp1 | hp1
        · rw [hp1]
          exact alookup_dinsert_isSome_pres _ _ _ _ (by simp [hmr])
        · exact alookup_dinsert_isSome_pres _ _ _ _ (h3 _ hp1)
      · intro p hp q hq
        exact alookup_dinsert_isSome_pres _ _ _ _ (h4 p hp q hq)
    · refine ⟨h1, ?_, ?_, h4⟩
      · intro p hp
        rcases mem_dinsert _ _ _ _ hp with hp1 | hp1
        · rw [hp1]
          exact h2 (g, mr) (alookup_mem _ _ _ hmr)
        · exact h2 _ hp1
      · intro p hp
        exact alookup_dinsert_isSome_pres _ _ _ _ (h3 _ hp)
    · exact absurd (h3 _ (alookup_mem _ _ _ hgal)) (by simp [hmr])
    · exact ⟨h1, h2, h3, h4⟩

theorem Inv_bind (S : ClassState) (cam lid g : Nat) (hS : Inv S)
    (hg : (alookup S.gallery g).isSome) :
    Inv { S with localToGlobal := bindLocal S.localToGlobal cam lid g } := by
  obtain ⟨h1, h2, h3, h4⟩ := hS
  refine ⟨h1, h2, h3, ?_⟩
  intro p hp q hq
  rcases mem_dinsert _ _ _ _ hp with hp1 | hp1
  · rw [hp1] at hq
    rcases mem_dinsert _ _ _ _ hq with hq1 | hq1
    · rw [hq1]
      exact hg
    · rcases hAm : alookup S.localToGlobal cam with _ | inner
      · rw [hAm] at hq1
        simp at hq1
      · rw [hAm] at hq1
        exact h4 _ (alookup_mem _ _ _ hAm) _ hq1
  · exact h4 p hp1 q hq

theorem Inv_processDetection (s : ClassState) (cam : Nat) (d : Detection) (hInv : Inv s) :
    Inv (processDetection s cam d).1 := by
  rcases processDetection_path s cam d with ⟨g0, hb, heq⟩ |
    ⟨hb, ⟨g1, hm, heq⟩ | ⟨hm, hbig, heq⟩ | ⟨hm, hsmall, heq⟩ | ⟨hm, heq⟩⟩ <;> rw [heq]
  · exact Inv_ugf _ cam g0 d.feature d.area hInv
  · refine Inv_ugf _ cam g1 d.feature d.area ?_
    exact Inv_bind
      { s with vesselTrajectory := dinsert s.vesselTrajectory d.localId d.bbox }
      cam d.localId g1 hInv (matchWithGallery_found_isSome s d.feature cam d.area g1 hm)
  · refine Inv_ugf _ cam s.globalIdCounter d.feature d.area ?_
    obtain ⟨h1, h2, h3, h4⟩ := hInv
    refine ⟨?_, ?_, ?_, ?_⟩
    · intro p hp
      rcases mem_dinsert _ _ _ _ hp with hp1 | hp1
      · rw [hp1]
        exact Nat.lt_succ_self _
      · exact Nat.lt_succ_of_lt (h1 _ hp1)
    · intro p hp
      rcases mem_dinsert _ _ _ _ hp with hp1 | hp1
      · rw [hp1]
        exact Nat.lt_succ_self _
      · exact Nat.lt_succ_of_lt (h2 _ hp1)
    · intro p hp
      rcases mem_dinsert _ _ _ _ hp with hp1 | hp1
      · rw [hp1]
        simp [alookup_dinsert_self]
      · exact alookup_dinsert_isSome_pres _ _ _ _ (h3 _ hp1)
    · intro p hp q hq
      rcases mem_dinsert _ _ _ _ hp with hp1 | hp1
      · rw [hp1] at hq
        rcases mem_dinsert _ _ _ _ hq with hq1 | hq1
        · rw [hq1]
          simp [alookup_dinsert_self]
        · rcases hAm : alookup s.localToGlobal cam with _ | inner
          · rw [hAm] at hq1
            simp at hq1
          · rw [hAm] at hq1
            exact alookup_dinsert_isSome_pres _ _ _ _
              (h4 _ (alookup_mem _ _ _ hAm) _ hq1)
      · exact alookup_dinsert_isSome_pres _ _ _ _ (h4 p hp1 q hq)
  · exact hInv
  · exact hInv

theorem pd_counter_alloc (s : ClassState) (cam : Nat) (d : Detection) :
    ((processDetection s cam d).2.2 = none ∧
      (processDetection s cam d).1.globalIdCounter = s.globalIdCounter) ∨
    ((processDetection s cam d).2.2 = some s.globalIdCounter ∧
      (processDetection s cam d).1.globalIdCounter = s.globalIdCounter + 1) := by
  rcases processDetection_path s cam d with ⟨g0, hb, heq⟩ |
    ⟨hb, ⟨g1, hm, heq⟩ | ⟨hm, hbig, heq⟩ | ⟨hm, hsmall, heq⟩ | ⟨hm, heq⟩⟩ <;> rw [heq]
  · exact Or.inl ⟨rfl, (ugf_frame _ cam g0 d.feature d.area).2.1⟩
  · exact Or.inl ⟨rfl, (ugf_frame _ cam g1 d.feature d.area).2.1⟩
  · exact Or.inr ⟨rfl, (ugf_frame _ cam s.globalIdCounter d.feature d.area).2.1⟩
  · exact Or.inl ⟨rfl, rfl⟩
  · exact Or.inl ⟨rfl, rfl⟩

theorem stepOp_counter_alloc (s : ClassState) (op : Op) :
    ((stepOp s op).2.2 = none ∧
      (stepOp s op).1.globalIdCounter = s.globalIdCounter) ∨
    ((stepOp s op).2.2 = some s.globalIdCounter ∧
      (stepOp s op).1.globalIdCounter = s.globalIdCounter + 1) := by
  cases op with
  | obs cam d => exact pd_counter_alloc s cam d
  | evict gid => exact Or.inl ⟨rfl, rfl⟩

theorem runTrace_mem_ge (ops : List Op) :
    ∀ (s : ClassState) (a : Nat), a ∈ (runTrace s ops).2 → s.globalIdCounter ≤ a := by
  induction ops with
  | nil =>
    intro s a ha
    simp [runTrace] at ha
  | cons op ops ih =>
    intro s a ha
    simp only [runTrace] at ha
    rcases stepOp_counter_alloc s op with ⟨h0, hc⟩ | ⟨h0, hc⟩ <;>
      by_cases hcr : (stepOp s op).2.1 = true
    · rw [if_pos hcr, h0] at ha
      simp [Option.toList] at ha
    · rw [if_neg hcr, h0] at ha
      simp only [Option.toList, List.nil_append] at ha
      have := ih (stepOp s op).1 a ha
      rw [hc] at this
      exact this
    · rw [if_pos hcr, h0] at ha
      simp [Option.toList] at ha
      rw [ha]
    · rw [if_neg hcr, h0] at ha
      simp only [Option.toList, List.cons_append, List.nil_append] at ha
      rcases List.mem_cons.mp ha with h1 | h1
      · rw [h1]
      · have := ih (stepOp s op).1 a h1
        rw [hc] at this
        exact Nat.le_of_succ_le this

theorem shouldRecord_true (t : EventState) (g : Nat) (now : ℚ)
    (h : now - (alookup t.lastTrackTime g).getD 0 ≥ t.trackingInterval) :
    shouldRecordTrackingPoint t g now =
      (true, { t with lastTrackTime := dinsert t.lastTrackTime g now }) := by
  simp only [shouldRecordTrackingPoint]
  rw [if_pos h]

theorem shouldRecord_false (t : EventState) (g : Nat) (now : ℚ)
    (h : ¬ now - (alookup t.lastTrackTime g).getD 0 ≥ t.trackingInterval) :
    shouldRecordTrackingPoint t g now = (false, t) := by
  simp only [shouldRecordTrackingPoint]
  rw [if_neg h]

theorem averagePosition_of_ne_nil (l : List Coord) (h : l.length ≠ 0) :
    averagePosition l = some
      ⟨(l.map Coord.latitude).sum / (l.length : ℚ),
       (l.map Coord.longitude).sum / (l.length : ℚ)⟩ := by
  unfold averagePosition
  rw [if_neg h]

theorem createNewEvent_evInv (s : EventState) (g : Nat) (cam : Nat) (now : ℚ)
    (coords : Coord) (h : evInv s) : evInv (createNewEvent s g cam now coords) := by
  obtain ⟨hI, hAct, hComp⟩ := h
  refine ⟨hI, ?_, hComp⟩
  intro p hp
  rcases mem_dinsert _ _ _ _ hp with hp1 | hp1
  · rw [hp1]
    constructor
    · simp
    · intro q hq
      simp at hq
  · exact hAct p hp1

theorem updateEvent_evInv (s : EventState) (g : Nat) (cam : Nat) (now : ℚ)
    (coords : Coord) (ch : Option String) (h : evInv s) :
    evInv (updateEvent s g cam now coords ch) := by
  obtain ⟨hI, hAct, hComp⟩ := h
  rcases hev : alookup s.activeEvents g with _ | ev
  · unfold updateEvent
    rw [hev]
    exact ⟨hI, hAct, hComp⟩
  · have hmem : (g, ev) ∈ s.activeEvents := alookup_mem _ _ _ hev
    have hgaps := (hAct (g, ev) hmem).1
    have hlink := (hAct (g, ev) hmem).2
    have hlen : ((dinsert ev.cameraPositions cam coords).map Prod.snd).length ≠ 0 := by
      rw [List.length_map]
      intro hc
      exact dinsert_ne_nil ev.cameraPositions cam coords (List.length_eq_zero.mp hc)
    by_cases hrec : now - (alookup s.lastTrackTime g).getD 0 ≥ s.trackingInterval
    · have hsrt := shouldRecord_true ({ s with
        activeEvents := dinsert s.activeEvents g ({ ev with
          cameraPositions := dinsert ev.cameraPositions cam coords,
          lastSeen := now }) }) g now hrec
      simp only [updateEvent, hev, hsrt, averagePosition_of_ne_nil _ hlen,
        eq_self_iff_true, if_true]
      refine ⟨hI, ?_, hComp⟩
      intro p hp
      rcases mem_dinsert _ _ _ _ hp with hp1 | hp1
      · -- the freshly extended event
        rw [hp1]
        constructor
        · rcases hpts : ev.trackingPoints with _ | ⟨p0, rest⟩
          · simp
          · simp only [List.cons_append, List.drop_succ_cons, List.drop_zero]
            rw [List.chain'_append]
            refine ⟨by simpa [hpts] using hgaps, by simp, ?_⟩
            intro x hx y hy
            simp only [List.head?_cons, Option.mem_def, Option.some.injEq] at hy
            subst hy
            have hx2 : (ev.trackingPoints.drop 1).getLast? = some x := by
              rw [hpts]
              simpa using hx
            have hxle := hlink x hx2
            simp only []
            linarith
        · intro q hq
          rcases hpts : ev.trackingPoints with _ | ⟨p0, rest⟩
          · rw [hpts] at hq
            simp at hq
          · rw [hpts] at hq
            simp only [List.cons_append, List.drop_succ_cons, List.drop_zero,
              List.getLast?_concat, Option.some.injEq] at hq
            subst hq
            simp [alookup_dinsert_self]
      · rcases mem_dinsert _ _ _ _ hp1 with hp2 | hp2
        · -- the snapshot-updated copy of the event (same tracking points)
          rw [hp2]
          refine ⟨hgaps, ?_⟩
          intro q hq
          have hqle := hlink q hq
          simp only [alookup_dinsert_self, Option.getD_some]
          linarith
        · -- an unrelated active event
          refine ⟨(hAct p hp2).1, ?_⟩
          intro q hq
          have hqle := (hAct p hp2).2 q hq
          by_cases hpg : p.1 = g
          · rw [hpg]
            simp only [alookup_dinsert_self, Option.getD_some]
            rw [hpg] at hqle
            linarith
          · rw [alookup_dinsert_ne s.lastTrackTime g p.1 now hpg]
            exact hqle
    · have hsrf := shouldRecord_false ({ s with
        activeEvents := dinsert s.activeEvents g ({ ev with
          cameraPositions := dinsert ev.cameraPositions cam coords,
          lastSeen := now }) }) g now hrec
      simp only [updateEvent, hev, hsrf, Bool.false_eq_true, if_false]
      refine ⟨hI, ?_, hComp⟩
      intro p hp
      rcases mem_dinsert _ _ _ _ hp with hp1 | hp1
      · rw [hp1]
        exact ⟨hgaps, fun q hq => hlink q hq⟩
      · exact hAct p hp1

theorem completeEvent_evInv (s : EventState) (g : Nat) (now : ℚ) (h : evInv s) :
    evInv (completeEvent s g now) := by
  obtain ⟨hI, hAct, hComp⟩ := h
  unfold completeEvent
  rcases hev : alookup s.activeEvents g with _ | ev
  · exact ⟨hI, hAct, hComp⟩
  · refine ⟨hI, ?_, ?_⟩
    · intro p hp
      have hmem := List.mem_of_mem_filter hp
      have hne : p.1 ≠ g := by
        have := List.of_mem_filter hp
        simpa using this
      refine ⟨(hAct p hmem).1, ?_⟩
      intro q hq
      rw [alookup_filter_ne s.lastTrackTime p.1 g hne]
      exact (hAct p hmem).2 q hq
    · intro p hp
      rcases List.mem_append.mp hp with hp1 | hp1
      · exact hComp p hp1
      · have hp2 : p = (g, { ev with endTime := some now }) := by simpa using hp1
        rw [hp2]
        exact (hAct (g, ev) (alookup_mem _ _ _ hev)).1

theorem checkEventCompletion_evInv (s : EventState) (cam : Nat) (now : ℚ) (h : evInv s) :
    evInv (checkEventCompletion s cam now) := by
  unfold checkEventCompletion
  by_cases hc : cam = 4
  · rw [if_pos hc]
    generalize (s.activeEvents.map Prod.fst) = keys
    induction keys generalizing s with
    | nil => exact h
    | cons k rest ih =>
      rw [List.foldl_cons]
      apply ih
      rcases hk : alookup s.activeEvents k with _ | ev <;> simp only [hk]
      · exact h
      · by_cases h4 : (alookup ev.cameraPositions 4).isSome
        · rw [if_pos h4]
          exact completeEvent_evInv s k now h
        · rw [if_neg h4]
          exact h
  · rw [if_neg hc]
    exact h

theorem evInv_init : evInv initEventState := by
  refine ⟨by norm_num [initEventState], ?_, ?_⟩ <;> intro p hp <;> simp [initEventState] at hp

theorem evInv_step (s : EventState) (op : EvOp) (h : evInv s) : evInv (evStep s op) := by
  cases op with
  | det gid cam now coords ch =>
    rcases gid with _ | g
    · exact h
    · simp only [evStep, evProcessDetection]
      by_cases hg0 : g = 0
      · rw [if_pos hg0]
        exact h
      · rw [if_neg hg0]
        by_cases hact : (alookup s.activeEvents g).isSome
        · rw [if_pos hact]
          exact updateEvent_evInv s g cam now coords ch h
        · rw [if_neg hact]
          exact createNewEvent_evInv s g cam now coords h
  | check cam now => exact checkEventCompletion_evInv s cam now h

theorem evInv_runEvTrace (ops : List EvOp) : evInv (runEvTrace ops) := by
  unfold runEvTrace
  generalize hs : initEventState = s0
  have h0 : evInv s0 := hs ▸ evInv_init
  clear hs
  induction ops generalizing s0 with
  | nil => exact h0
  | cons op ops ih =>
    rw [List.foldl_cons]
    exact ih _ (evInv_step s0 op h0)

theorem hav_fixture : haversineDistance 0 0 1 0 = 6371000 * (Real.pi / 180) := by
  have hx0 : 0 < Real.pi / 360 := by positivity
  have hx2 : Real.pi / 360 < Real.pi / 2 := by
    have := Real.pi_pos
    linarith
  have hsin_nonneg : 0 ≤ Real.sin (Real.pi / 360) :=
    Real.sin_nonneg_of_nonneg_of_le_pi hx0.le (by linarith [Real.pi_pos])
  have hcos_pos : 0 < Real.cos (Real.pi / 360) :=
    Real.cos_pos_of_mem_Ioo ⟨by linarith [Real.pi_pos], hx2⟩
  have h1a : 1 - Real.sin (Real.pi / 360) ^ 2 = Real.cos (Real.pi / 360) ^ 2 := by
    have := Real.sin_sq_add_cos_sq (Real.pi / 360)
    linarith
  have hsq1 : Real.sqrt (Real.sin (Real.pi / 360) ^ 2) = Real.sin (Real.pi / 360) :=
    Real.sqrt_sq hsin_nonneg
  have hsq2 : Real.sqrt (1 - Real.sin (Real.pi / 360) ^ 2) = Real.cos (Real.pi / 360) := by
    rw [h1a]
    exact Real.sqrt_sq hcos_pos.le
  have hatan : atan2R (Real.sin (Real.pi / 360)) (Real.cos (Real.pi / 360)) =
      Real.pi / 360 := by
    unfold atan2R
    rw [if_pos hcos_pos]
    rw [← Real.tan_eq_sin_div_cos]
    exact Real.arctan_tan (by linarith [Real.pi_pos]) hx2
  unfold haversineDistance radiansR
  norm_num
  rw [show Real.pi / 180 / 2 = Real.pi / 360 by ring]
  rw [hsq1, hsq2, hatan]
  ring

end HelperLemmas

section ClaimTheorems

/-- **C1.** Claim: the gallery matching step for a new above-threshold
local track on camera C considers exactly the gallery entries of that class
holding an embedding from a camera in predecessors(C), and returns a match
iff the minimum distance over those candidates' selected features is below
`match_threshold`, returning that minimizing candidate's global id.  The
code violates this: `match_with_gallery` builds the restricted candidate
matrix but then searches the FULL per-class FAISS index and uses the
resulting index to subscript the restricted id list.  Here camera 2's only
eligible candidate is gid 1, whose selected camera-1 feature `[10,0]` lies
at squared distance 100 ≥ match_threshold from the query — yet the call
returns a match on gid 1 (the full-index nearest neighbor is gid 0's
camera-2 vector at distance 0, and position 0 of the filtered id list is
gid 1). -/
theorem C1_full_index_match_bug :
    matchWithGallery c1State [0, 0] 2 5 = MatchResult.found 1 ∧
    (filteredGalleryOf c1State 2).map Prod.fst = [1] ∧
    bestFeature (cameraQueryScope 2) ⟨[(1, [10, 0])]⟩ = some [10, 0] ∧
    sqDist [0, 0] [10, 0] = 100 ∧
    ¬ sqDist [0, 0] [10, 0] < c1State.matchThreshold := by
  norm_num [matchWithGallery, filteredGalleryOf, galleryIdsOf, c1State, cameraQueryScope,
    alookup, bestFeature, faissSearch, sqDist, argminFrom, dinsert, List.filterMap_cons,
    Option.map]

/-- **C3.** Claim: `EventTracker` completes an identity in the terminal
camera's cycle only when the terminal camera previously contributed a
position AND does not contribute one in the current cycle; an identity for
which it does contribute in the current cycle is not completed.  The code
violates the second conjunct: `check_event_completion` completes every
active event whose snapshot has ever recorded a terminal-camera position,
with no test of the current cycle.  Here the terminal camera contributes
gid 1's position at t = 100 and the completion check of the same cycle
still completes the event (end time 100, persisted, dropped from the
active set). -/
theorem C3_completion_ignores_current_cycle :
    (alookup c3Cycle.activeEvents 1).map (fun ev => (alookup ev.cameraPositions 4).isSome) =
      some true ∧
    alookup c3After.activeEvents 1 = none ∧
    c3After.completedEvents.map (fun p => (p.1, p.2.endTime)) = [(1, some 100)] ∧
    alookup c3After.lastTrackTime 1 = none := by
  norm_num [c3After, c3Cycle, evProcessDetection, initEventState, createNewEvent, updateEvent,
    alookup, dinsert, shouldRecordTrackingPoint, averagePosition, checkEventCompletion,
    completeEvent, List.filter]

/-- **C5.** Claim: a below-`size_threshold` detection with no existing
binding resolves to none and leaves the identity state unchanged — no
gallery entry created or matched, no binding created, counter and area
records untouched (only the trajectory snapshot is updated); a later
above-threshold detection on the same local track (camera 1 scenario) then
registers a fresh global id. -/
theorem C5_below_threshold_no_registration (s : ClassState) (cam : Nat) (d1 d2 : Detection)
    (hnb : lookupBinding s.localToGlobal cam d1.localId = none)
    (hsmall : d1.area < s.sizeThreshold)
    (hnb1 : lookupBinding s.localToGlobal 1 d2.localId = none)
    (hbig : s.sizeThreshold ≤ d2.area) :
    (processDetection s cam d1).2.1 = Outcome.skipped ∧
    (processDetection s cam d1).2.2 = none ∧
    (processDetection s cam d1).1.gallery = s.gallery ∧
    (processDetection s cam d1).1.faissIndex = s.faissIndex ∧
    (processDetection s cam d1).1.localToGlobal = s.localToGlobal ∧
    (processDetection s cam d1).1.globalIdCounter = s.globalIdCounter ∧
    (processDetection s cam d1).1.maxSizeRecord = s.maxSizeRecord ∧
    (processDetection (processDetection s cam d1).1 1 d2).2 =
      (Outcome.resolved s.globalIdCounter, some s.globalIdCounter) := by
  rw [small_unbound_skip s cam d1 hnb hsmall]
  refine ⟨rfl, rfl, rfl, rfl, rfl, rfl, rfl, ?_⟩
  exact register_on_camera1 _ d2 hnb1 hbig

/-- Witness for C5 at a concrete input: a fresh resolver (thresholds 1 and
1/2), a detection of area 1/2 on camera 1's local track 7, then a detection
of area 100 on the same track. -/
theorem C5_below_threshold_no_registration_witness :
    (processDetection (initClassState 1 (1 / 2)) 1 c5Small).2.1 = Outcome.skipped ∧
    (processDetection (processDetection (initClassState 1 (1 / 2)) 1 c5Small).1 1 c5Big).2 =
      (Outcome.resolved 0, some 0) := by
  have h := C5_below_threshold_no_registration (initClassState 1 (1 / 2)) 1 c5Small c5Big
    (by norm_num [lookupBinding, alookup, initClassState])
    (by norm_num [Detection.area, c5Small, initClassState])
    (by norm_num [lookupBinding, alookup, initClassState])
    (by norm_num [Detection.area, c5Big, initClassState])
  exact ⟨h.1, h.2.2.2.2.2.2.2⟩

/-- **C10.** Claim: the per-class identity counter starts at 0, so the first
identity allocated in each class carries global id 0; `EventService.
process_detection` tests the resolved id for falsiness rather than absence,
so a detection carrying global id 0 is treated exactly like an unresolved
one and never creates or updates an event. -/
theorem C10_first_global_id_never_event_tracked :
    (∀ a b : ℚ, (initClassState a b).globalIdCounter = 0) ∧
    (∀ (a b : ℚ) (cam : Nat) (f : List ℚ) (ar : ℚ),
      (registerObject (initClassState a b) cam f ar).2 = 0) ∧
    (∀ (s : EventState) (cam : Nat) (now : ℚ) (c : Coord) (ch : Option String),
      evProcessDetection s (some 0) cam now c ch = s ∧
      evProcessDetection s (some 0) cam now c ch = evProcessDetection s none cam now c ch) := by
  exact ⟨fun a b => rfl, fun a b cam f ar => rfl, fun s cam now c ch => ⟨rfl, rfl⟩⟩

/-- **C2.** Claim: while the binding for `(class, camera_id, local_track_id)`
is live, every repeated resolve call with that key returns the same global
id as the first successful resolution.  Holds of the code: a successful
resolution always leaves the binding pointing at the returned id and that
id in the gallery, and a bound key is answered from the binding alone, so
the second call (same camera and local track id) returns the same id.
`WFBound` (bound ids exist in the gallery) holds on every reachable state
since the resolver never deletes gallery entries. -/
theorem C2_resolve_idempotent (s : ClassState) (cam : Nat) (d1 d2 : Detection) (g : Nat)
    (hwf : WFBound s) (hlid : d2.localId = d1.localId)
    (h1 : (processDetection s cam d1).2.1 = Outcome.resolved g) :
    (processDetection (processDetection s cam d1).1 cam d2).2.1 = Outcome.resolved g := by
  obtain ⟨hb, hg⟩ := processDetection_resolved_state s cam d1 g hwf h1
  exact (bound_resolves _ cam d2 g (by rw [hlid]; exact hb) hg).1

/-- Witness for C2: from a fresh resolver, the first call on camera 1 local
track 7 registers global id 0, and the repeated call returns 0 again. -/
theorem C2_resolve_idempotent_witness :
    (processDetection (processDetection (initClassState 1 (1 / 2)) 1 c5Big).1 1 c5Big).2.1 =
      Outcome.resolved 0 :=
  C2_resolve_idempotent (initClassState 1 (1 / 2)) 1 c5Big c5Big 0
    (by simp [WFBound, initClassState, alookup])
    rfl
    (by norm_num [processDetection, initClassState, c5Big, matchWithGallery, filteredGalleryOf,
      galleryIdsOf, cameraQueryScope, lookupBinding, bindLocal, alookup, dinsert, Detection.area,
      finishResolution, registerObject, updateGalleryFeature, faissSearch, sqDist, argminFrom])

/-- **C4.** Claim: for every `(global_id, camera_id)` the stored embedding
is overwritten only when a new detection's area strictly exceeds the
previously recorded maximum for that camera (on every resolution path), and
applying two detections with areas `a1 < a2` in order leaves the embedding
submitted with `a2` stored.  The second part is stated for two consecutive
resolutions of the same identity on the same camera, with the recorded
maximum before the pair below `a2` (as in the spec's scenario, where the
pair starts the record via registration or first contact). -/
theorem C4_best_shot_monotonicity (s : ClassState) (cam : Nat) (d1 d2 : Detection) (g : Nat)
    (hInv : Inv s) :
    (∀ g' c' f1 f2, galleryFeature s g' c' = some f1 →
      galleryFeature (processDetection s cam d1).1 g' c' = some f2 → f2 ≠ f1 →
      c' = cam ∧ maxRec s g' c' < d1.area) ∧
    ((processDetection s cam d1).2.1 = Outcome.resolved g →
      (processDetection (processDetection s cam d1).1 cam d2).2.1 = Outcome.resolved g →
      d1.area < d2.area → maxRec s g cam < d2.area →
      galleryFeature (processDetection (processDetection s cam d1).1 cam d2).1 g cam =
        some d2.feature) := by
  constructor
  · intro g' c' f1 f2 hold hnew hne
    exact processDetection_feature_change s cam d1 hInv.1 g' c' f1 f2 hold hnew hne
  · intro h1 h2 hlt hm
    rcases halloc2 : (processDetection (processDetection s cam d1).1 cam d2).2.2 with _ | a2
    · have hmsr1 : (alookup (processDetection s cam d1).1.maxSizeRecord g).isSome := by
        rcases halloc1 : (processDetection s cam d1).2.2 with _ | a1
        · exact pd_msr_isSome s cam d1 g (resolved_msr s cam d1 g hInv h1 halloc1)
        · have ha1 : a1 = g := resolved_alloc_eq s cam d1 g a1 h1 halloc1
          rw [ha1] at halloc1
          exact pd_alloc_msr s cam d1 g halloc1
      have hmax1 : maxRec (processDetection s cam d1).1 g cam < d2.area := by
        rcases halloc1 : (processDetection s cam d1).2.2 with _ | a1
        · have hmsr0 := resolved_msr s cam d1 g hInv h1 halloc1
          have hp := (processDetection_resolved_post s cam d1 g h1).2 halloc1 hmsr0
          by_cases hl : maxRec s g cam < d1.area
          · rw [(hp.1 hl).2]
            exact hlt
          · rw [(hp.2 hl).2]
            exact hm
        · have ha1 : a1 = g := resolved_alloc_eq s cam d1 g a1 h1 halloc1
          rw [ha1] at halloc1
          rw [((processDetection_resolved_post s cam d1 g h1).1 halloc1).2]
          exact hlt
      exact (((processDetection_resolved_post (processDetection s cam d1).1 cam d2 g h2).2
        halloc2 hmsr1).1 hmax1).1
    · have ha2 : a2 = g := resolved_alloc_eq (processDetection s cam d1).1 cam d2 g a2 h2 halloc2
      rw [ha2] at halloc2
      exact ((processDetection_resolved_post (processDetection s cam d1).1 cam d2 g h2).1
        halloc2).1

/-- Witness for C4: identity 0 on camera 1 has recorded maximum 10; bound
detections with areas 20 then 30 leave the area-30 detection's feature
stored. -/
theorem C4_best_shot_monotonicity_witness :
    galleryFeature (processDetection (processDetection c7State 1 c7Det).1 1 c4Det2).1 0 1 =
      some c4Det2.feature := by
  have h := C4_best_shot_monotonicity c7State 1 c7Det c4Det2 0
    (by norm_num [Inv, c7State, alookup])
  exact h.2
    (by norm_num [processDetection, c7State, c7Det, lookupBinding, alookup, dinsert,
      finishResolution, updateGalleryFeature, Detection.area])
    (by norm_num [processDetection, c7State, c7Det, c4Det2, lookupBinding, alookup, dinsert,
      finishResolution, updateGalleryFeature, Detection.area])
    (by norm_num [c7Det, c4Det2, Detection.area])
    (by norm_num [maxRec, c7State, c4Det2, alookup, Detection.area])

/-- **C6.** Claim: within each object class the global ids produced by
successive registrations are strictly increasing and never reused, even
across evictions (the base class's camera-4 gallery cleanup, which deletes
gallery entries but never touches the counter).  Stated over every
operation sequence (detections and evictions) from every starting state:
the list of ids allocated along the run is sorted strictly increasing,
hence pairwise distinct. -/
theorem C6_counter_monotonic : ∀ (ops : List Op) (s : ClassState),
    List.Sorted (· < ·) (runTrace s ops).2 := by
  intro ops
  induction ops with
  | nil =>
    intro s
    simp [runTrace]
  | cons op ops ih =>
    intro s
    simp only [runTrace]
    rcases stepOp_counter_alloc s op with ⟨h0, hc⟩ | ⟨h0, hc⟩ <;>
      by_cases hcr : (stepOp s op).2.1 = true
    · rw [if_pos hcr, h0]
      simp [Option.toList]
    · rw [if_neg hcr, h0]
      simpa [Option.toList] using ih (stepOp s op).1
    · rw [if_pos hcr, h0]
      simp [Option.toList]
    · rw [if_neg hcr, h0]
      simp only [Option.toList, List.cons_append, List.nil_append]
      rw [List.sorted_cons]
      refine ⟨?_, ih (stepOp s op).1⟩
      intro b hb
      have hge := runTrace_mem_ge ops (stepOp s op).1 b hb
      rw [hc] at hge
      exact Nat.lt_of_succ_le hge

/-- **C7 (counterexample).** Claim: when the key has a live binding, the
gallery is neither accessed nor mutated — every stored embedding and every
recorded per-camera maximum is unchanged.  False: `process_camera_frame`
runs `update_gallery_feature` on the bound path too (line 163), so a bound
detection with area 20 > the recorded maximum 10 overwrites the stored
embedding `[0,0]` with its own `[7,7]` and the maximum with 20. -/
theorem C7_bound_mutation_counterexample :
    lookupBinding c7State.localToGlobal 1 c7Det.localId = some 0 ∧
    galleryFeature c7State 0 1 = some [0, 0] ∧
    maxRec c7State 0 1 = 10 ∧
    (processDetection c7State 1 c7Det).2.1 = Outcome.resolved 0 ∧
    galleryFeature (processDetection c7State 1 c7Det).1 0 1 = some [7, 7] ∧
    maxRec (processDetection c7State 1 c7Det).1 0 1 = 20 := by
  norm_num [c7State, c7Det, processDetection, lookupBinding, alookup, dinsert, finishResolution,
    updateGalleryFeature, galleryFeature, maxRec, Detection.area]

/-- **C7 (amended).** A resolution whose key has a live binding performs no
gallery matching or registration — it returns the bound id with the
counter, FAISS index and bindings unchanged — but the best-shot update
still runs: all stored embeddings and per-camera maxima are unchanged
unless the detection's area strictly exceeds the recorded maximum for
`(bound id, camera)`, in which case exactly that embedding and maximum are
overwritten.  (Hypotheses: the bound id has a gallery entry and a max-size
record, as on every reachable state.) -/
theorem C7_bound_best_shot_update (s : ClassState) (cam : Nat) (d : Detection) (g : Nat)
    (hb : lookupBinding s.localToGlobal cam d.localId = some g)
    (hg : (alookup s.gallery g).isSome)
    (hmsr : (alookup s.maxSizeRecord g).isSome) :
    (processDetection s cam d).2.1 = Outcome.resolved g ∧
    (processDetection s cam d).2.2 = none ∧
    (processDetection s cam d).1.globalIdCounter = s.globalIdCounter ∧
    (processDetection s cam d).1.faissIndex = s.faissIndex ∧
    (processDetection s cam d).1.localToGlobal = s.localToGlobal ∧
    (¬ maxRec s g cam < d.area →
      (processDetection s cam d).1.gallery = s.gallery ∧
      (processDetection s cam d).1.maxSizeRecord = s.maxSizeRecord) ∧
    (maxRec s g cam < d.area →
      galleryFeature (processDetection s cam d).1 g cam = some d.feature ∧
      maxRec (processDetection s cam d).1 g cam = d.area ∧
      ∀ g' c', ¬(g' = g ∧ c' = cam) →
        galleryFeature (processDetection s cam d).1 g' c' = galleryFeature s g' c' ∧
        maxRec (processDetection s cam d).1 g' c' = maxRec s g' c') := by
  obtain ⟨e, hgal⟩ := Option.isSome_iff_exists.mp hg
  obtain ⟨mr, hmr⟩ := Option.isSome_iff_exists.mp hmsr
  have heq : processDetection s cam d =
      finishResolution { s with vesselTrajectory := dinsert s.vesselTrajectory d.localId d.bbox }
        cam d g none := by
    simp only [processDetection]
    rw [hb]
  have hres := bound_resolves s cam d g hb hg
  refine ⟨hres.1, hres.2, ?_, ?_, ?_, ?_, ?_⟩ <;> rw [heq]
  · exact (ugf_frame _ cam g d.feature d.area).2.1
  · exact (ugf_frame _ cam g d.feature d.area).2.2.1
  · exact (ugf_frame _ cam g d.feature d.area).1
  · intro hge
    have h2 := (ugf_post
      { s with vesselTrajectory := dinsert s.vesselTrajectory d.localId d.bbox }
      cam g d.feature d.area mr e hmr hgal).2 hge
    rw [show (finishResolution
        { s with vesselTrajectory := dinsert s.vesselTrajectory d.localId d.bbox }
        cam d g none).1 = (updateGalleryFeature
        { s with vesselTrajectory := dinsert s.vesselTrajectory d.localId d.bbox }
        cam g d.feature d.area).1 from rfl, h2]
    exact ⟨rfl, rfl⟩
  · intro hlt
    have h1 := (ugf_post
      { s with vesselTrajectory := dinsert s.vesselTrajectory d.localId d.bbox }
      cam g d.feature d.area mr e hmr hgal).1 hlt
    have hoth := ugf_other_entries
      { s with vesselTrajectory := dinsert s.vesselTrajectory d.localId d.bbox }
      cam g d.feature d.area mr hmr
    exact ⟨h1.1, h1.2.1, fun g' c' hne => hoth g' c' hne⟩

/-- Witness for the amended C7 at the concrete bound-detection fixture. -/
theorem C7_bound_best_shot_update_witness :
    (processDetection c7State 1 c7Det).2.1 = Outcome.resolved 0 ∧
    galleryFeature (processDetection c7State 1 c7Det).1 0 1 = some c7Det.feature := by
  have h := C7_bound_best_shot_update c7State 1 c7Det 0
    (by norm_num [lookupBinding, alookup, c7State, c7Det])
    (by norm_num [alookup, c7State])
    (by norm_num [alookup, c7State])
  exact ⟨h.1, (h.2.2.2.2.2.2 (by norm_num [maxRec, c7State, c7Det, alookup, Detection.area])).1⟩

/-- **C8 (counterexample).** Claim: consecutive tracking points of an event
are separated by at least `tracking_interval`, including the gap between
the initial point created with the event and the next appended point.
False: `_create_new_event` never initialises `last_track_time`, so the
first update after creation reads the default 0 and always appends:
creating at t = 1000 and updating at t = 1004 yields consecutive
timestamps 1000 and 1004, four seconds apart with interval 10. -/
theorem C8_initial_gap_counterexample :
    ((alookup (runEvTrace c8Trace).activeEvents 1).map
       (fun ev => ev.trackingPoints.map TrackingPoint.timestamp)) = some [1000, 1004] ∧
    (1004 : ℚ) - 1000 < (runEvTrace c8Trace).trackingInterval := by
  norm_num [c8Trace, runEvTrace, evStep, evProcessDetection, initEventState, createNewEvent,
    updateEvent, alookup, dinsert, shouldRecordTrackingPoint, averagePosition, List.foldl]

/-- **C8 (amended).** Tracking points appended by the sampling check — all
points after the initial creation point — are separated by at least
`tracking_interval`; only the gap after the initial creation point can be
shorter, because event creation does not record a last-sample time.  Stated
for every event (active or completed) reachable by any call sequence on a
fresh `EventService`. -/
theorem C8_appended_points_spacing : ∀ (ops : List EvOp) (g : Nat) (ev : EventData),
    ((g, ev) ∈ (runEvTrace ops).activeEvents ∨ (g, ev) ∈ (runEvTrace ops).completedEvents) →
    List.Chain' (fun u v => (runEvTrace ops).trackingInterval ≤ v.timestamp - u.timestamp)
      (ev.trackingPoints.drop 1) := by
  intro ops g ev h
  have hinv := evInv_runEvTrace ops
  rcases h with h | h
  · exact (hinv.2.1 (g, ev) h).1
  · exact hinv.2.2 (g, ev) h

/-- Witness for the amended C8: the four-sighting trace `c8wTrace` produces
the event `c8wEv` with appended timestamps 1004 and 1014, ten seconds
apart. -/
theorem C8_appended_points_spacing_witness :
    List.Chain' (fun u v => (runEvTrace c8wTrace).trackingInterval ≤ v.timestamp - u.timestamp)
      (c8wEv.trackingPoints.drop 1) :=
  C8_appended_points_spacing c8wTrace 1 c8wEv
    (Or.inl (by norm_num [c8wTrace, c8wEv, runEvTrace, evStep, evProcessDetection,
      initEventState, createNewEvent, updateEvent, alookup, dinsert,
      shouldRecordTrackingPoint, averagePosition, List.foldl]))

/-- **C9.** Claim: with exactly two calibration points the reference scale
is the haversine great-circle distance (Earth radius 6,371,000 m) between
the geographic coordinates divided by the Euclidean pixel distance, and the
fixture (lat 0, lon 0)–(lat 1°, lon 0) yields a real distance of
approximately 111,195 m.  The distance equals `6371000 · π/180 ≈ 111194.93`,
within 1 m of 111,195. -/
theorem C9_reference_scale_haversine :
    (∀ p1 p2 : RefPoint, (calculateReferenceLine p1 p2).2 =
      haversineDistance p1.lat p1.lon p2.lat p2.lon /
        Real.sqrt ((p2.pixelX - p1.pixelX) ^ 2 + (p2.pixelY - p1.pixelY) ^ 2)) ∧
    |haversineDistance 0 0 1 0 - 111195| < 1 ∧
    (calculateReferenceLine ⟨0, 0, 0, 0⟩ ⟨100, 0, 1, 0⟩).2 = haversineDistance 0 0 1 0 / 100 := by
  refine ⟨fun p1 p2 => rfl, ?_, ?_⟩
  · rw [hav_fixture, abs_lt]
    constructor <;> nlinarith [Real.pi_gt_d6, Real.pi_lt_d6]
  · unfold calculateReferenceLine
    have h1 : ((100 : ℝ) - 0) ^ 2 + ((0 : ℝ) - 0) ^ 2 = 100 ^ 2 := by norm_num
    simp only []
    rw [show Real.sqrt (((100 : ℝ) - 0) ^ 2 + ((0 : ℝ) - 0) ^ 2) = 100 by
      rw [h1]
      exact Real.sqrt_sq (by norm_num)]

end ClaimTheorems

end Vessel
